import Mathlib

/-!
The aggregation pipeline of wow_tracker, `src/App.js`.

A shallow embedding of the data-handling code of the `App` component:
the seed-list parser of `loadTrackedCharacters`, the snapshot builder
`fetchFriendData`, the roster handlers `handleAddFriend` and
`handleRemoveFriend`, and the ranking comparator of the table body.

JavaScript strings are lists of characters.  The remote API is an explicit
parameter (`Env`) giving the outcome of every request the code issues.
The two Unicode case mappings (`toLowerCase`, `toUpperCase`) are tables of
the language runtime and are taken as parameters; every other string
built-in used by the code (`split`, `trim`, `startsWith`, `includes`) is
defined here.  Numbers are integers; the win rate of `formatStats` is
computed on doubles, each operation rounding its exact rational result.
-/

namespace WowTracker

/-- A JavaScript string, as the list of its characters. -/
abbrev Str := List Char

/-! ## String built-ins -/

/-- The built-in `str.split(sep)` for a one-character separator: the pieces
between the occurrences of `sep`, in order; never the empty array. -/
def split (sep : Char) : Str → List Str
  | [] => [[]]
  | c :: cs =>
    if c = sep then [] :: split sep cs
    else
      match split sep cs with
      | [] => [[c]]
      | piece :: rest => (c :: piece) :: rest

/-- The built-in `arr.pop()` read as a value: the last element, `""` standing
for `undefined` on the empty array (which `split` never returns). -/
def pop (arr : List Str) : Str := arr.getLastD []

/-- The element `arr[0]`, `""` standing for `undefined` on the empty array
(which `split` never returns). -/
def first (arr : List Str) : Str := arr.headD []

/-- White space and line terminators of ECMAScript, the characters `trim`
strips. -/
def isWhiteSpace (c : Char) : Bool :=
  let n := c.toNat
  n = 0x09 || n = 0x0A || n = 0x0B || n = 0x0C || n = 0x0D || n = 0x20 ||
  n = 0xA0 || n = 0x1680 || (0x2000 ≤ n && n ≤ 0x200A) || n = 0x2028 ||
  n = 0x2029 || n = 0x202F || n = 0x205F || n = 0x3000 || n = 0xFEFF

/-- The built-in `str.trim()`. -/
def trim (s : Str) : Str :=
  ((s.dropWhile isWhiteSpace).reverse.dropWhile isWhiteSpace).reverse

/-- The built-in `str.startsWith(p)`. -/
def startsWith (s p : Str) : Bool := p.isPrefixOf s

/-- The built-in `str.includes(p)`: `p` occurs somewhere in `s`. -/
def includes : Str → Str → Bool
  | [], p => p.isPrefixOf []
  | c :: cs, p => p.isPrefixOf (c :: cs) || includes cs p

/-- The ASCII part of `toLowerCase`, used to evaluate the code on ASCII
inputs. -/
def lowerASCII (s : Str) : Str := s.map Char.toLower

/-- The ASCII part of `toUpperCase`, used to evaluate the code on ASCII
inputs. -/
def upperASCII (s : Str) : Str := s.map Char.toUpper

/-! ## Bracket type token (`fetchFriendData`, line 246) -/

/-- The expression `bracket.href.split('/').pop().split('?')[0]`. -/
def bracketType (href : Str) : Str :=
  first (split '?' (pop (split '/' href)))

/-! ## Array built-ins taking the element index -/

/-- The callback of `arr.map((x, i) => ...)` applied from index `i` on. -/
def mapFrom {α β : Type} (f : α → Nat → β) : Nat → List α → List β
  | _, [] => []
  | i, x :: xs => f x i :: mapFrom f (i + 1) xs

/-- The callback of `arr.filter((x, i) => ...)` applied from index `i` on. -/
def filterFrom {α : Type} (p : α → Nat → Bool) : Nat → List α → List α
  | _, [] => []
  | i, x :: xs => if p x i then x :: filterFrom p (i + 1) xs else filterFrom p (i + 1) xs

/-! ## Remote payloads

Numbers of the payloads are integers.  A field the code reads through
`?.` or `|| default` is optional (`none`: absent or `null`); a field the
code dereferences directly is present in the payload type. -/

/-- The way a request fails (`axios.get` rejects). -/
inductive FetchError where
  | network
  | notFound
  | authRejected
  | decode
  deriving DecidableEq, Repr

/-- A statistics record of a bracket payload. -/
structure StatisticsData where
  played : Option Int
  won : Option Int
  lost : Option Int
  deriving DecidableEq, Repr

/-- The payload of the `pvp-bracket/<type>` resource, the fields the code
reads. -/
structure BracketData where
  rating : Option Int
  season_match_statistics : Option StatisticsData
  season_round_statistics : Option StatisticsData
  deriving DecidableEq, Repr

/-- One bracket reference enumerated by the `pvp-summary` resource. -/
structure BracketRef where
  href : Str
  deriving DecidableEq, Repr

/-- The payload of the `pvp-summary` resource. -/
structure PvpSummaryData where
  brackets : List BracketRef
  deriving DecidableEq, Repr

/-- One asset of the `character-media` resource. -/
structure Asset where
  key : Str
  value : Option Str
  deriving DecidableEq, Repr

/-- The payload of the `character-media` resource. -/
structure MediaData where
  assets : List Asset
  deriving DecidableEq, Repr

/-- The payload of the character profile resource: `name`, `realm.slug`,
`character_class.name` and `faction.name`. -/
structure ProfileData where
  name : Str
  realmSlug : Str
  className : Str
  factionName : Str
  deriving DecidableEq, Repr

/-- The environment of the component: the two case mappings of the language
runtime and the outcome of every request to the remote service.  A request
is identified by its resource, the server and character name of its URL and
the bearer token of its header; a bracket request also by the position of
its bracket in the enumeration and by the bracket type of its URL.  The
profile response carries `none` when its body is falsy. -/
structure Env where
  toLowerCase : Str → Str
  toUpperCase : Str → Str
  token : Except FetchError Str
  profile : Str → Str → Str → Except FetchError (Option ProfileData)
  media : Str → Str → Str → Except FetchError MediaData
  pvpSummary : Str → Str → Str → Except FetchError PvpSummaryData
  pvpBracket : Nat → Str → Str → Str → Str → Except FetchError BracketData

/-! ## Snapshots -/

/-- The `statistics` object of a formatted bracket. -/
structure Statistics where
  played : Int
  won : Int
  lost : Int
  deriving DecidableEq, Repr

/-- One entry of `brackets` in the formatted data. -/
structure BracketResult where
  type : Str
  rating : Int
  statistics : Statistics
  deriving DecidableEq, Repr

/-- The `character` object of the formatted data. -/
structure Character where
  name : Str
  realmSlug : Str
  className : Str
  avatar : Option Str
  deriving DecidableEq, Repr

/-- The object `formattedData` returned by `fetchFriendData`. -/
structure Snapshot where
  character : Character
  factionType : Str
  brackets : List BracketResult
  rank : Str
  deriving DecidableEq, Repr

/-- What one bracket promise resolves to: `{ type, data }`. -/
structure BracketFetch where
  type : Str
  data : BracketData
  deriving DecidableEq, Repr

/-! ## `fetchFriendData` -/

/-- The expression `x || 0` on an optional number: `0` when `x` is absent,
`null` or `0`, else `x`. -/
def orZero : Option Int → Int
  | none => 0
  | some v => if v = 0 then 0 else v

/-- The expression `stats?.field`. -/
def optField (stats : Option StatisticsData) (field : StatisticsData → Option Int) :
    Option Int :=
  match stats with
  | none => none
  | some s => field s

/-- The object returned by the `catch` branch of a bracket promise
(lines 264-279), its `data` part. -/
def zeroData : BracketData :=
  { rating := some 0
    season_match_statistics := some { played := some 0, won := some 0, lost := some 0 }
    season_round_statistics := some { played := some 0, won := some 0, lost := some 0 } }

/-- The callback of `pvpResponse.data.brackets.map` (lines 245-281): derive
the bracket type, request the bracket detail, and replace a failed request
by the zero-valued data. -/
def fetchBracket (env : Env) (server friendName token : Str)
    (bracket : BracketRef) (i : Nat) : BracketFetch :=
  let bracketType := bracketType bracket.href
  match env.pvpBracket i server friendName bracketType token with
  | .ok data => { type := bracketType, data := data }
  | .error _ => { type := bracketType, data := zeroData }

/-- The callback of `bracketResults.map` (lines 299-318). -/
def formatBracket (result : BracketFetch) : BracketResult :=
  let isShuffle := includes result.type "shuffle".toList
  let stats :=
    if isShuffle then result.data.season_round_statistics
    else result.data.season_match_statistics
  { type := result.type
    rating := orZero result.data.rating
    statistics :=
      { played := orZero (optField stats StatisticsData.played)
        won := orZero (optField stats StatisticsData.won)
        lost := orZero (optField stats StatisticsData.lost) } }

/-- The expression
`assets.find(asset => asset.key === 'avatar')?.value || null`. -/
def avatarOf (assets : List Asset) : Option Str :=
  match assets.find? (fun asset => asset.key = "avatar".toList) with
  | none => none
  | some asset =>
    match asset.value with
    | none => none
    | some v => if v = [] then none else some v

/-- The expression `accessToken || await getAccessToken()` (line 205); the
empty string is falsy. -/
def resolveToken (env : Env) (accessToken : Option Str) : Except FetchError Str :=
  match accessToken with
  | none => env.token
  | some t => if t = [] then env.token else .ok t

/-- The body of the `try` block of `fetchFriendData` (lines 205-325): the
value returned, or the error thrown. -/
def fetchFriendDataTry (env : Env) (accessToken : Option Str) (friendName server : Str) :
    Except FetchError (Option Snapshot) := do
  let token ← resolveToken env accessToken
  let profileResponse ← env.profile server friendName token
  let mediaResponse ← env.media server friendName token
  match profileResponse with
  | some profile =>
    let pvpResponse ← env.pvpSummary server friendName token
    let bracketResults :=
      mapFrom (fetchBracket env server friendName token) 0 pvpResponse.brackets
    pure (some
      { character :=
          { name := profile.name
            realmSlug := profile.realmSlug
            className := profile.className
            avatar := avatarOf mediaResponse.assets }
        factionType := env.toUpperCase profile.factionName
        brackets := bracketResults.map formatBracket
        rank := "N/A".toList })
  | none => pure none

/-- The function `fetchFriendData` (lines 203-333): the formatted data, or
`none` for `null`, which the `catch` block returns on every error. -/
def fetchFriendData (env : Env) (accessToken : Option Str) (friendName server : Str) :
    Option Snapshot :=
  match fetchFriendDataTry env accessToken friendName server with
  | .ok data => data
  | .error _ => none

/-! ## Component state -/

/-- The state variables of `App` (lines 112-119). -/
structure AppState where
  friends : List Str
  newFriend : Str
  newServer : Str
  friendData : List Snapshot
  loading : Bool
  initialLoading : Bool
  error : Option Str
  accessToken : Option Str
  deriving DecidableEq, Repr

/-- The effect of line 205 on the state variable `accessToken`:
`getAccessToken` stores the token it obtains (line 194). -/
def tokenAfter (env : Env) (accessToken : Option Str) : Option Str :=
  match accessToken with
  | none =>
    match env.token with
    | .ok t => some t
    | .error _ => none
  | some t =>
    if t = [] then
      match env.token with
      | .ok t1 => some t1
      | .error _ => some t
    else some t

/-- The expression `s.trim().toLowerCase()` (lines 139, 337, 338). -/
def normalize (env : Env) (s : Str) : Str := env.toLowerCase (trim s)

/-! ## `loadTrackedCharacters` -/

/-- One element of `characters`: the pair destructured from the fields of a
line; `server` is `none` (`undefined`) for a line without a comma. -/
structure TrackedCharacter where
  character : Str
  server : Option Str
  deriving DecidableEq, Repr

/-- The expression `[...new Set(xs)]`: the elements in order of first
occurrence, each once. -/
def setOf (xs : List Str) : List Str :=
  xs.foldl (fun acc x => if x ∈ acc then acc else acc ++ [x]) []

/-- The callback of the last `map` (lines 141-144):
`const [character, server] = line.split(',').map(s => s.trim())`. -/
def parseLine (line : Str) : TrackedCharacter :=
  let fields := (split ',' line).map trim
  { character := first fields, server := fields[1]? }

/-- The predicate of the `filter` (line 138):
`line.trim() && !line.startsWith('#')`. -/
def keepLine (line : Str) : Bool :=
  trim line != [] && !startsWith line "#".toList

/-- The value `characters` of `loadTrackedCharacters` (lines 133-144) for
the text of the seed list. -/
def characters (env : Env) (text : Str) : List TrackedCharacter :=
  let lines := split '\n' text
  (setOf ((lines.filter keepLine).map (normalize env))).map parseLine

/-- A template substitution of a possibly `undefined` string. -/
def interpolate : Option Str → Str
  | some s => s
  | none => "undefined".toList

/-- The key pushed at line 155. -/
def friendKey (character server : Str) : Str :=
  character ++ "-".toList ++ server

/-- One turn of the loop of lines 151-162 on the pair
`(newFriends, newFriendData)`. -/
def loadStep (env : Env) (accessToken : Option Str)
    (acc : List Str × List Snapshot) (c : TrackedCharacter) : List Str × List Snapshot :=
  match fetchFriendData env accessToken c.character (interpolate c.server) with
  | some data =>
    (acc.1 ++ [friendKey c.character (interpolate c.server)], acc.2 ++ [data])
  | none => acc

/-- The function `loadTrackedCharacters` (lines 122-173); `file` is the text
of the seed list, `none` when it cannot be read. -/
def loadTrackedCharacters (env : Env) (st : AppState) (file : Option Str) : AppState :=
  match file with
  | none =>
    { st with
      initialLoading := false
      error := some "Failed to load tracked characters. Please check the file format.".toList }
  | some text =>
    let cs := characters env text
    let loaded := cs.foldl (loadStep env st.accessToken) ([], [])
    { st with
      friends := loaded.1
      friendData := loaded.2
      initialLoading := false
      error := none
      accessToken := if cs = [] then st.accessToken else tokenAfter env st.accessToken }

/-! ## `handleAddFriend` and `handleRemoveFriend` -/

/-- The function `handleAddFriend` (lines 336-356). -/
def handleAddFriend (env : Env) (st : AppState) : AppState :=
  let characterName := normalize env st.newFriend
  let serverName := normalize env st.newServer
  let friendKey := friendKey characterName serverName
  if characterName != [] && serverName != [] && !st.friends.contains friendKey then
    match fetchFriendData env st.accessToken characterName serverName with
    | some data =>
      { st with
        friends := st.friends ++ [friendKey]
        friendData := st.friendData ++ [data]
        newFriend := []
        newServer := []
        loading := false
        error := none
        accessToken := tokenAfter env st.accessToken }
    | none =>
      { st with
        loading := false
        error := some ("Could not find ".toList ++ characterName ++ " on ".toList ++ serverName)
        accessToken := tokenAfter env st.accessToken }
  else st

/-- The function `handleRemoveFriend` (lines 359-362).  The index is an
integer; an argument that is no number compares unequal to every position,
as an integer outside the list does. -/
def handleRemoveFriend (st : AppState) (friendToRemove : Str) (index : Int) : AppState :=
  { st with
    friends := st.friends.filter (fun friend => friend != friendToRemove)
    friendData := filterFrom (fun _ i => decide ((i : Int) ≠ index)) 0 st.friendData }

/-! ## Ranking (lines 535-548) -/

/-- The number values the comparator computes with. -/
inductive JSNumber where
  | nan
  | negInf
  | posInf
  | fin (v : Int)
  deriving DecidableEq, Repr

/-- The larger of two numbers, as `Math.max` combines its arguments. -/
def JSNumber.max : JSNumber → JSNumber → JSNumber
  | .nan, _ => .nan
  | _, .nan => .nan
  | .posInf, _ => .posInf
  | _, .posInf => .posInf
  | .negInf, y => y
  | x, .negInf => x
  | .fin a, .fin b => .fin (Max.max a b)

/-- The call `Math.max(...xs)`: `-Infinity` for no argument. -/
def mathMax (xs : List Int) : JSNumber :=
  xs.foldl (fun acc x => JSNumber.max acc (.fin x)) .negInf

/-- The subtraction `x - y`.  On integers it is exact here; the double
result of the code has the same sign. -/
def JSNumber.sub : JSNumber → JSNumber → JSNumber
  | .nan, _ => .nan
  | _, .nan => .nan
  | .posInf, .posInf => .nan
  | .negInf, .negInf => .nan
  | .posInf, _ => .posInf
  | .negInf, _ => .negInf
  | .fin _, .posInf => .negInf
  | .fin _, .negInf => .posInf
  | .fin a, .fin b => .fin (a - b)

/-- The test `v > 0` that `sort` applies to a comparator result. -/
def JSNumber.isPositive : JSNumber → Bool
  | .posInf => true
  | .fin v => decide (0 < v)
  | _ => false

/-- The expression `b.rating || 0` on a formatted bracket. -/
def ratingOrZero (b : BracketResult) : Int :=
  if b.rating = 0 then 0 else b.rating

/-- The value `highestSoloRatingA` of the comparator (lines 537-541). -/
def highestSoloRating (a : Snapshot) : JSNumber :=
  mathMax ((a.brackets.filter (fun b => includes b.type "shuffle".toList)).map ratingOrZero)

/-- The comparator of lines 536-548. -/
def compareFn (a b : Snapshot) : JSNumber :=
  (highestSoloRating b).sub (highestSoloRating a)

/-- The built-in `arr.sort(cmp)` on a copy of the array.  The sort is stable
and compares through `SortCompare`, which takes a `NaN` result of `cmp` as
`+0`: `a` stays before `b` unless `cmp(a, b) > 0`.  When these comparisons
form a total preorder, as those of `compareFn` do, the stable arrangement is
unique; insertion from the right computes it. -/
def sort {α : Type} (cmp : α → α → JSNumber) (arr : List α) : List α :=
  arr.insertionSort (fun a b => (cmp a b).isPositive = false)

/-- The rows of the table, in order: `[...friendData].sort(...)`. -/
def rankedView (friendData : List Snapshot) : List Snapshot :=
  sort compareFn friendData

/-! ## `formatStats` (lines 365-369)

The division and the multiplication of the win rate are operations on
doubles: the exact result rounded to the nearest double. -/

/-- The nearest integer of a rational, a tie going to the even one. -/
def roundHalfEven (t : ℚ) : ℤ :=
  if t - ⌊t⌋ < 1 / 2 then ⌊t⌋
  else if 1 / 2 < t - ⌊t⌋ then ⌊t⌋ + 1
  else if ⌊t⌋ % 2 = 0 then ⌊t⌋ else ⌊t⌋ + 1

/-- The double nearest to a real number (IEEE 754 binary64, round to
nearest, ties to even): 53 significant bits at the binary exponent of the
number, at least `-1022`.  Overflow to `Infinity`, from `2 ^ 1024` on, is
not part of the model. -/
def toDouble (q : ℚ) : ℚ :=
  if q = 0 then 0
  else roundHalfEven (q / 2 ^ max (Int.log 2 |q| - 52) (-1074)) * 2 ^ max (Int.log 2 |q| - 52) (-1074)

/-- The built-in `x.toFixed(1)` for a double below `10 ^ 21`: with `n` the
integer nearest to `10 x`, the larger one at a tie, the digits of `n` with a
point before the last one. -/
def toFixed1 (x : ℚ) : Str :=
  (if x < 0 then ['-'] else []) ++
    Nat.toDigits 10 (⌊|x| * 10 + 1 / 2⌋₊ / 10) ++ '.' :: Nat.toDigits 10 (⌊|x| * 10 + 1 / 2⌋₊ % 10)

/-- The substitution of an integer number in a template: its decimal
digits, for an integer below `10 ^ 21` in absolute value. -/
def numberToString (n : Int) : Str :=
  if n < 0 then '-' :: Nat.toDigits 10 n.natAbs else Nat.toDigits 10 n.natAbs

/-- The value `winRate` of `formatStats` (line 367):
`stats.played ? ((stats.won / stats.played) * 100).toFixed(1) : '0.0'`. -/
def winRate (stats : Statistics) : Str :=
  if stats.played = 0 then "0.0".toList
  else toFixed1 (toDouble (toDouble ((stats.won : ℚ) / (stats.played : ℚ)) * 100))

/-- The function `formatStats` (lines 365-369). -/
def formatStats (stats : Option Statistics) : Str :=
  match stats with
  | none => "No stats available".toList
  | some stats =>
    "Wins: ".toList ++ numberToString stats.won ++ " | Losses: ".toList ++
      numberToString stats.lost ++ " | Win Rate: ".toList ++ winRate stats ++ "%".toList

/-! ## The requests of `fetchFriendData`

The same function with the list of the requests it issues, in the order it
issues them: the token request of `getAccessToken` (line 184) and one entry
for every `axios.get` (lines 209, 219, 233, 249). -/

/-- A request to the remote service. -/
inductive Request where
  | token
  | profile (server friendName token : Str)
  | media (server friendName token : Str)
  | pvpSummary (server friendName token : Str)
  | pvpBracket (i : Nat) (server friendName bracketType token : Str)
  deriving DecidableEq, Repr

/-- The requests of line 205: `getAccessToken` posts a token request when
the cached token is falsy, and none is issued otherwise. -/
def tokenRequests (accessToken : Option Str) : List Request :=
  match accessToken with
  | none => [.token]
  | some t => if t = [] then [.token] else []

/-- The request of one bracket promise (line 249). -/
def bracketRequest (server friendName token : Str) (bracket : BracketRef) (i : Nat) :
    Request :=
  .pvpBracket i server friendName (bracketType bracket.href) token

/-- The function `fetchFriendData` (lines 203-333) with its requests: the
value returned and the requests issued.  A rejected token, profile, media or
summary request ends the `try` block, and the `catch` block returns `null`;
every bracket promise issues its one request. -/
def fetchFriendDataRun (env : Env) (accessToken : Option Str) (friendName server : Str) :
    Option Snapshot × List Request :=
  match resolveToken env accessToken with
  | .error _ => (none, tokenRequests accessToken)
  | .ok token =>
    match env.profile server friendName token with
    | .error _ => (none, tokenRequests accessToken ++ [.profile server friendName token])
    | .ok profileResponse =>
      match env.media server friendName token with
      | .error _ =>
        (none, tokenRequests accessToken ++
          [.profile server friendName token, .media server friendName token])
      | .ok mediaResponse =>
        match profileResponse with
        | none =>
          (none, tokenRequests accessToken ++
            [.profile server friendName token, .media server friendName token])
        | some profile =>
          match env.pvpSummary server friendName token with
          | .error _ =>
            (none, tokenRequests accessToken ++
              [.profile server friendName token, .media server friendName token,
                .pvpSummary server friendName token])
          | .ok pvpResponse =>
            (some
              { character :=
                  { name := profile.name
                    realmSlug := profile.realmSlug
                    className := profile.className
                    avatar := avatarOf mediaResponse.assets }
                factionType := env.toUpperCase profile.factionName
                brackets :=
                  (mapFrom (fetchBracket env server friendName token) 0
                    pvpResponse.brackets).map formatBracket
                rank := "N/A".toList },
              tokenRequests accessToken ++
                [.profile server friendName token, .media server friendName token,
                  .pvpSummary server friendName token] ++
                mapFrom (bracketRequest server friendName token) 0 pvpResponse.brackets)

/-! ## `fetchFriendData` on response bodies with absent parts

The payload records above hold every part the code dereferences without a
guard.  Here a response is taken as the client delivers it: a body, or a
part of a body that the code dereferences, may be absent (missing, `null` or
`undefined`), and the dereference then throws a `TypeError` into the `catch`
block.  A part that is present has the type of the remote schema, and a
field that is only copied (`name`, `slug`) is taken as present. -/

/-- The body of the profile response, when truthy: `realmSlug` is `none`
when the body has no `realm`, `className` when it has no `character_class`,
`factionName` when it has no `faction` or the faction has no `name`. -/
structure ProfileBody where
  name : Str
  realmSlug : Option Str
  className : Option Str
  factionName : Option Str
  deriving DecidableEq, Repr

/-- The body of the media response: `assets` is `none` when the body is
`null` or has no `assets`; an entry of the array is `none` when it is
`null`. -/
structure MediaBody where
  assets : Option (List (Option Asset))
  deriving DecidableEq, Repr

/-- The body of the summary response: `brackets` is `none` when the body is
`null` or has no `brackets`; an entry of the array is `none` when it is
`null` or has no `href`. -/
structure PvpSummaryBody where
  brackets : Option (List (Option BracketRef))
  deriving DecidableEq, Repr

/-- The outcome of every request, with the bodies as delivered.  The profile
response carries `none` when its body is falsy, a bracket response when its
body is `null` or `undefined`.  A bracket body without any of the fields,
such as a text the client could not decode and passes on as a string, is the
record with every field absent. -/
structure RawEnv where
  toUpperCase : Str → Str
  token : Except FetchError Str
  profile : Str → Str → Str → Except FetchError (Option ProfileBody)
  media : Str → Str → Str → Except FetchError MediaBody
  pvpSummary : Str → Str → Str → Except FetchError PvpSummaryBody
  pvpBracket : Nat → Str → Str → Str → Str → Except FetchError (Option BracketData)

/-- What one bracket promise resolves to, `{ type, data }`, with the body as
delivered. -/
structure BracketResponse where
  type : Str
  data : Option BracketData
  deriving DecidableEq, Repr

/-- The expression `accessToken || await getAccessToken()` (line 205). -/
def resolveTokenRaw (env : RawEnv) (accessToken : Option Str) : Except FetchError Str :=
  match accessToken with
  | none => env.token
  | some t => if t = [] then env.token else .ok t

/-- One bracket promise (lines 245-281): `none` when it is rejected, which
it is when `bracket.href` cannot be read (line 246, outside the `try`); a
rejected request is replaced by the zero-valued data, and a response is
passed on with its body. -/
def bracketPromise (env : RawEnv) (server friendName token : Str)
    (bracket : Option BracketRef) (i : Nat) : Option BracketResponse :=
  match bracket with
  | none => none
  | some b =>
    match env.pvpBracket i server friendName (bracketType b.href) token with
    | .ok data => some { type := bracketType b.href, data := data }
    | .error _ => some { type := bracketType b.href, data := some zeroData }

/-- The results of a list of steps of which each may throw: `none` as soon
as one throws.  For promises it is `await Promise.all(...)` (line 283). -/
def allOrThrow {α : Type} : List (Option α) → Option (List α)
  | [] => some []
  | none :: _ => none
  | some x :: rest =>
    match allOrThrow rest with
    | none => none
    | some xs => some (x :: xs)

/-- The callback of `bracketResults.map` (lines 299-318) on a response:
`none` when `result.data.season_match_statistics` (line 303) throws, which
it does on a body that is `null` or `undefined`. -/
def formatBracketResponse (result : BracketResponse) : Option BracketResult :=
  match result.data with
  | none => none
  | some data => some (formatBracket { type := result.type, data := data })

/-- The call `assets.find(asset => asset.key === 'avatar')`: `none` when the
callback throws on a `null` entry before an avatar is found. -/
def findAvatar : List (Option Asset) → Option (Option Asset)
  | [] => some none
  | none :: _ => none
  | some asset :: rest =>
    if asset.key = "avatar".toList then some (some asset) else findAvatar rest

/-- The expression
`mediaResponse.data.assets.find(asset => asset.key === 'avatar')?.value || null`
(line 294): `none` when it throws. -/
def avatarOfBody (assets : Option (List (Option Asset))) : Option (Option Str) :=
  match assets with
  | none => none
  | some entries =>
    match findAvatar entries with
    | none => none
    | some none => some none
    | some (some asset) =>
      match asset.value with
      | none => some none
      | some v => if v = [] then some none else some (some v)

/-- The function `fetchFriendData` (lines 203-333) on the bodies as
delivered: the formatted data, or `none` for `null`, which is returned at
line 325 for a falsy profile body and by the `catch` block for every
rejected request and every `TypeError`. -/
def fetchFriendDataRaw (env : RawEnv) (accessToken : Option Str) (friendName server : Str) :
    Option Snapshot :=
  match resolveTokenRaw env accessToken with
  | .error _ => none
  | .ok token =>
    match env.profile server friendName token with
    | .error _ => none
    | .ok profileResponse =>
      match env.media server friendName token with
      | .error _ => none
      | .ok mediaResponse =>
        match profileResponse with
        | none => none
        | some profile =>
          match env.pvpSummary server friendName token with
          | .error _ => none
          | .ok pvpResponse =>
            match pvpResponse.brackets with
            | none => none
            | some brackets =>
              match allOrThrow
                  (mapFrom (bracketPromise env server friendName token) 0 brackets) with
              | none => none
              | some bracketResults =>
                match profile.realmSlug, profile.className, avatarOfBody mediaResponse.assets,
                    profile.factionName,
                    allOrThrow (bracketResults.map formatBracketResponse) with
                | some realmSlug, some className, some avatar, some factionName,
                    some formatted =>
                  some
                    { character :=
                        { name := profile.name
                          realmSlug := realmSlug
                          className := className
                          avatar := avatar }
                      factionType := env.toUpperCase factionName
                      brackets := formatted
                      rank := "N/A".toList }
                | _, _, _, _, _ => none

/-- The profile payload as a body with every part present. -/
def ProfileData.toBody (p : ProfileData) : ProfileBody :=
  { name := p.name, realmSlug := some p.realmSlug, className := some p.className,
    factionName := some p.factionName }

/-- The environment with payload records as an environment of bodies: every
body with every part present. -/
def Env.toRaw (env : Env) : RawEnv :=
  { toUpperCase := env.toUpperCase
    token := env.token
    profile := fun server friendName token =>
      match env.profile server friendName token with
      | .ok profileResponse => .ok (profileResponse.map ProfileData.toBody)
      | .error e => .error e
    media := fun server friendName token =>
      match env.media server friendName token with
      | .ok media => .ok { assets := some (media.assets.map some) }
      | .error e => .error e
    pvpSummary := fun server friendName token =>
      match env.pvpSummary server friendName token with
      | .ok summary => .ok { brackets := some (summary.brackets.map some) }
      | .error e => .error e
    pvpBracket := fun i server friendName bracketType token =>
      match env.pvpBracket i server friendName bracketType token with
      | .ok data => .ok (some data)
      | .error e => .error e }

/-! ## The ranking key in the words of the specification -/

/-- The ratings of the brackets of a snapshot whose type contains
`shuffle`. -/
def shuffleRatings (a : Snapshot) : List Int :=
  (a.brackets.filter (fun b => includes b.type "shuffle".toList)).map BracketResult.rating

/-- The best shuffle rating of a snapshot: the maximum of its shuffle
ratings, and the floor `⊥` when it has no shuffle bracket. -/
def bestShuffleRating (a : Snapshot) : WithBot Int := (shuffleRatings a).maximum

/-- The number that stands for a best rating: `-Infinity` for the floor. -/
def JSNumber.ofBest (x : WithBot Int) : JSNumber :=
  match x with
  | none => .negInf
  | some v => .fin v

/-! ## A concrete environment

The scenario of the specification: a character with the brackets
`shuffle-mage-fire`, `2v2` and `3v3`, whose `3v3` detail request fails. -/

/-- The profile payload of the scenario. -/
def scenarioProfile : ProfileData :=
  { name := "Atlas".toList, realmSlug := "tarren-mill".toList,
    className := "Mage".toList, factionName := "Horde".toList }

/-- The media payload of the scenario. -/
def scenarioMedia : MediaData :=
  { assets := [{ key := "avatar".toList, value := some "https://render/atlas.jpg".toList }] }

/-- The summary payload of the scenario: three enumerated brackets. -/
def scenarioSummary : PvpSummaryData :=
  { brackets :=
      [{ href := "https://eu.api.blizzard.com/profile/wow/character/tarren-mill/atlas/pvp-bracket/shuffle-mage-fire?namespace=profile-eu".toList },
       { href := "https://eu.api.blizzard.com/profile/wow/character/tarren-mill/atlas/pvp-bracket/2v2?namespace=profile-eu".toList },
       { href := "https://eu.api.blizzard.com/profile/wow/character/tarren-mill/atlas/pvp-bracket/3v3?namespace=profile-eu".toList }] }

/-- The remote service of the scenario, with the ASCII case mappings: the
first two bracket requests succeed, every other one fails. -/
def scenarioEnv : Env :=
  { toLowerCase := lowerASCII
    toUpperCase := upperASCII
    token := .ok "token".toList
    profile := fun _ _ _ => .ok (some scenarioProfile)
    media := fun _ _ _ => .ok scenarioMedia
    pvpSummary := fun _ _ _ => .ok scenarioSummary
    pvpBracket := fun i _ _ _ _ =>
      if i = 0 then
        .ok { rating := some 2100
              season_match_statistics := some { played := some 20, won := some 11, lost := some 9 }
              season_round_statistics := some { played := some 120, won := some 70, lost := some 50 } }
      else if i = 1 then
        .ok { rating := some 1800
              season_match_statistics := some { played := some 10, won := some 7, lost := some 3 }
              season_round_statistics := none }
      else .error .notFound }

/-- The remote service of the scenario after the cached token `stale` has
expired: every request that carries `stale` is rejected for authentication,
the token request gives the token `token`, and every request that carries
another token is answered as in the scenario. -/
def staleEnv : Env :=
  { scenarioEnv with
    profile := fun server friendName token =>
      if token = "stale".toList then .error .authRejected
      else scenarioEnv.profile server friendName token
    media := fun server friendName token =>
      if token = "stale".toList then .error .authRejected
      else scenarioEnv.media server friendName token
    pvpSummary := fun server friendName token =>
      if token = "stale".toList then .error .authRejected
      else scenarioEnv.pvpSummary server friendName token
    pvpBracket := fun i server friendName bracketType token =>
      if token = "stale".toList then .error .authRejected
      else scenarioEnv.pvpBracket i server friendName bracketType token }

/-- The scenario with the `3v3` detail answered by a response whose body is
`null`, every other response as in the scenario. -/
def nullBodyEnv : RawEnv :=
  { scenarioEnv.toRaw with
    pvpBracket := fun i server friendName bracketType token =>
      if i = 2 then .ok none
      else scenarioEnv.toRaw.pvpBracket i server friendName bracketType token }

/-- The scenario with a summary body that has no `brackets`. -/
def noBracketsEnv : RawEnv :=
  { scenarioEnv.toRaw with pvpSummary := fun _ _ _ => .ok { brackets := none } }

/-- The scenario with a falsy profile body. -/
def falsyProfileEnv : RawEnv :=
  { scenarioEnv.toRaw with profile := fun _ _ _ => .ok none }

/-- The snapshot `fetchFriendData` builds in the scenario. -/
def scenarioSnapshot : Snapshot :=
  { character :=
      { name := "Atlas".toList, realmSlug := "tarren-mill".toList, className := "Mage".toList,
        avatar := some "https://render/atlas.jpg".toList }
    factionType := "HORDE".toList
    brackets :=
      [{ type := "shuffle-mage-fire".toList, rating := 2100,
         statistics := { played := 120, won := 70, lost := 50 } },
       { type := "2v2".toList, rating := 1800,
         statistics := { played := 10, won := 7, lost := 3 } },
       { type := "3v3".toList, rating := 0,
         statistics := { played := 0, won := 0, lost := 0 } }]
    rank := "N/A".toList }

/-- A snapshot without shuffle bracket: one `2v2` entry. -/
def teamOnlySnapshot (name : Str) (rating : Int) : Snapshot :=
  { character :=
      { name := name, realmSlug := "tarren-mill".toList, className := "Rogue".toList,
        avatar := none }
    factionType := "HORDE".toList
    brackets :=
      [{ type := "2v2".toList, rating := rating,
         statistics := { played := 4, won := 2, lost := 2 } }]
    rank := "N/A".toList }

/-- An empty component state. -/
def emptyState : AppState :=
  { friends := [], newFriend := [], newServer := [], friendData := [], loading := false,
    initialLoading := false, error := none, accessToken := none }

/-! ## Lemmas on the string built-ins -/

theorem split_ne_nil (sep : Char) (s : Str) : split sep s ≠ [] := by
  induction s with
  | nil => simp [split]
  | cons c cs ih =>
    unfold split
    split_ifs
    · simp
    · cases h : split sep cs with
      | nil => exact absurd h ih
      | cons piece rest => simp

theorem split_of_not_mem (sep : Char) (s : Str) (h : sep ∉ s) : split sep s = [s] := by
  induction s with
  | nil => simp [split]
  | cons c cs ih =>
    have hc : c ≠ sep := fun e => h (by simp [e])
    have hcs : sep ∉ cs := fun e => h (by simp [e])
    simp [split, hc, ih hcs]

theorem split_append_sep (sep : Char) (s t : Str) (h : sep ∉ s) :
    split sep (s ++ sep :: t) = s :: split sep t := by
  induction s with
  | nil => simp [split]
  | cons c cs ih =>
    have hc : c ≠ sep := fun e => h (by simp [e])
    have hcs : sep ∉ cs := fun e => h (by simp [e])
    simp [split, hc, ih hcs]

theorem split_append_sep_exists (sep : Char) (p t : Str) :
    ∃ init, init ≠ [] ∧ split sep (p ++ sep :: t) = init ++ split sep t := by
  induction p with
  | nil => exact ⟨[[]], by simp, by simp [split]⟩
  | cons c cs ih =>
    obtain ⟨init, hne, hsplit⟩ := ih
    by_cases hc : c = sep
    · exact ⟨[] :: init, by simp, by simp [split, hc, ← hsplit]⟩
    · cases init with
      | nil => exact absurd rfl hne
      | cons piece rest =>
        exact ⟨(c :: piece) :: rest, by simp, by simp [split, hc, hsplit]⟩

theorem pop_append (init arr : List Str) (h : arr ≠ []) : pop (init ++ arr) = pop arr := by
  cases arr with
  | nil => exact absurd rfl h
  | cons a as =>
    simp only [pop, List.getLastD_eq_getLast?, List.getLast?_append]
    rw [List.getLast?_eq_getLast _ (by simp)]
    simp

theorem pop_split_append_sep (sep : Char) (p t : Str) :
    pop (split sep (p ++ sep :: t)) = pop (split sep t) := by
  obtain ⟨init, -, hsplit⟩ := split_append_sep_exists sep p t
  rw [hsplit, pop_append _ _ (split_ne_nil sep t)]


/-- The built-in `includes` decides the occurrence of `p` inside `s`. -/
theorem includes_iff (s p : Str) :
    includes s p = true ↔ ∃ pre post, s = pre ++ p ++ post := by
  induction s with
  | nil =>
    simp only [includes, List.isPrefixOf_iff_prefix]
    constructor
    · intro h
      exact ⟨[], [], by simpa using (List.prefix_nil.mp h)⟩
    · rintro ⟨pre, post, h⟩
      have h1 : pre ++ p ++ post = [] := h.symm
      simp only [List.append_eq_nil] at h1
      rw [h1.1.2]
  | cons c cs ih =>
    simp only [includes, Bool.or_eq_true, List.isPrefixOf_iff_prefix, ih]
    constructor
    · rintro (⟨t, ht⟩ | ⟨pre, post, h⟩)
      · exact ⟨[], t, by simpa using ht.symm⟩
      · exact ⟨c :: pre, post, by simp [h]⟩
    · rintro ⟨pre, post, h⟩
      cases pre with
      | nil => exact Or.inl ⟨post, by simpa using h.symm⟩
      | cons d pre1 =>
        right
        simp only [List.cons_append, List.cons.injEq] at h
        exact ⟨pre1, post, h.2⟩

/-! ## Lemmas on the indexed array built-ins -/

theorem length_mapFrom {α β : Type} (f : α → Nat → β) (k : Nat) (l : List α) :
    (mapFrom f k l).length = l.length := by
  induction l generalizing k with
  | nil => rfl
  | cons x xs ih => simp [mapFrom, ih]

theorem getElem_mapFrom {α β : Type} (f : α → Nat → β) (k : Nat) (l : List α) (i : Nat)
    (h1 : i < (mapFrom f k l).length) (h2 : i < l.length) :
    (mapFrom f k l)[i] = f l[i] (k + i) := by
  induction l generalizing k i with
  | nil => exact absurd h2 (by simp)
  | cons x xs ih =>
    cases i with
    | zero => simp [mapFrom]
    | succ j =>
      simp only [mapFrom, List.getElem_cons_succ]
      rw [ih (k + 1) j]
      congr 1
      omega


/-! ## Lemmas on `fetchFriendData` -/

/-- The `try` block returns formatted data only after the token, the profile,
the media and the summary have been obtained, and then returns the data
built from them. -/
theorem fetchFriendData_eq_some (env : Env) (accessToken : Option Str)
    (friendName server : Str) (snapshot : Snapshot)
    (h : fetchFriendData env accessToken friendName server = some snapshot) :
    ∃ token profile media summary,
      resolveToken env accessToken = .ok token ∧
      env.profile server friendName token = .ok (some profile) ∧
      env.media server friendName token = .ok media ∧
      env.pvpSummary server friendName token = .ok summary ∧
      snapshot.brackets =
        (mapFrom (fetchBracket env server friendName token) 0 summary.brackets).map
          formatBracket := by
  unfold fetchFriendData fetchFriendDataTry at h
  cases ht : resolveToken env accessToken with
  | error e => simp [ht, bind, Except.bind] at h
  | ok token =>
    cases hp : env.profile server friendName token with
    | error e => simp [ht, hp, bind, Except.bind] at h
    | ok profileResponse =>
      cases hm : env.media server friendName token with
      | error e => simp [ht, hp, hm, bind, Except.bind] at h
      | ok media =>
        cases profileResponse with
        | none => simp [ht, hp, hm, bind, Except.bind, pure, Except.pure] at h
        | some profile =>
          cases hs : env.pvpSummary server friendName token with
          | error e => simp [ht, hp, hm, hs, bind, Except.bind] at h
          | ok summary =>
            simp only [ht, hp, hm, hs, bind, Except.bind, pure, Except.pure,
              Option.some.injEq] at h
            exact ⟨token, profile, media, summary, rfl, hp, hm, hs, by rw [← h]⟩

theorem fetchFriendData_of_ok (env : Env) (accessToken : Option Str)
    (friendName server token : Str) (profile : ProfileData) (media : MediaData)
    (summary : PvpSummaryData)
    (ht : resolveToken env accessToken = .ok token)
    (hp : env.profile server friendName token = .ok (some profile))
    (hm : env.media server friendName token = .ok media)
    (hs : env.pvpSummary server friendName token = .ok summary) :
    ∃ snapshot, fetchFriendData env accessToken friendName server = some snapshot ∧
      snapshot.brackets =
        (mapFrom (fetchBracket env server friendName token) 0 summary.brackets).map
          formatBracket := by
  unfold fetchFriendData fetchFriendDataTry
  simp only [ht, hp, hm, hs, bind, Except.bind, pure, Except.pure]
  exact ⟨_, rfl, rfl⟩

theorem fetchBracket_type (env : Env) (server friendName token : Str) (bracket : BracketRef)
    (i : Nat) : (fetchBracket env server friendName token bracket i).type
      = bracketType bracket.href := by
  simp only [fetchBracket]
  split <;> rfl

theorem formatBracket_type (result : BracketFetch) : (formatBracket result).type = result.type :=
  rfl

theorem fetchBracket_ok (env : Env) (server friendName token : Str) (bracket : BracketRef)
    (i : Nat) (data : BracketData)
    (h : env.pvpBracket i server friendName (bracketType bracket.href) token = .ok data) :
    fetchBracket env server friendName token bracket i
      = { type := bracketType bracket.href, data := data } := by
  simp only [fetchBracket, h]

theorem fetchBracket_error (env : Env) (server friendName token : Str) (bracket : BracketRef)
    (i : Nat) (e : FetchError)
    (h : env.pvpBracket i server friendName (bracketType bracket.href) token = .error e) :
    fetchBracket env server friendName token bracket i
      = { type := bracketType bracket.href, data := zeroData } := by
  simp only [fetchBracket, h]

theorem formatBracket_zeroData (t : Str) :
    formatBracket { type := t, data := zeroData }
      = { type := t, rating := 0, statistics := { played := 0, won := 0, lost := 0 } } := by
  simp only [formatBracket, zeroData]
  split <;> rfl

theorem orZero_eq_getD (x : Option Int) : orZero x = x.getD 0 := by
  cases x with
  | none => rfl
  | some v =>
    simp only [orZero, Option.getD_some]
    split_ifs with h
    · exact h.symm
    · rfl

theorem optField_eq_bind (stats : Option StatisticsData) (field : StatisticsData → Option Int) :
    optField stats field = stats.bind field := by
  cases stats <;> rfl

/-! ## Lemmas on the ranking -/

theorem ratingOrZero_eq (b : BracketResult) : ratingOrZero b = b.rating := by
  unfold ratingOrZero
  split_ifs with h
  · exact h.symm
  · rfl

theorem foldl_max_ofBest (xs : List Int) (acc : WithBot Int) :
    xs.foldl (fun acc x => JSNumber.max acc (.fin x)) (JSNumber.ofBest acc)
      = JSNumber.ofBest (Max.max acc xs.maximum) := by
  induction xs generalizing acc with
  | nil => simp
  | cons x xs ih =>
    have hstep : JSNumber.max (JSNumber.ofBest acc) (.fin x)
        = JSNumber.ofBest (Max.max acc (x : WithBot Int)) := by
      induction acc using WithBot.recBotCoe with
      | bot => simp only [bot_le, max_eq_right]; rfl
      | coe a =>
        rw [← WithBot.coe_max]
        rfl
    rw [List.foldl_cons, hstep, ih, List.maximum_cons, max_assoc]

theorem mathMax_eq_ofBest (xs : List Int) : mathMax xs = JSNumber.ofBest xs.maximum := by
  have h := foldl_max_ofBest xs ⊥
  simpa [mathMax, JSNumber.ofBest] using h

theorem highestSoloRating_eq (a : Snapshot) :
    highestSoloRating a = JSNumber.ofBest (bestShuffleRating a) := by
  unfold highestSoloRating bestShuffleRating shuffleRatings
  rw [mathMax_eq_ofBest]
  congr 2
  exact List.map_congr_left (fun b _ => ratingOrZero_eq b)

theorem sub_ofBest_isPositive (x y : WithBot Int) :
    ((JSNumber.ofBest y).sub (JSNumber.ofBest x)).isPositive = false ↔ y ≤ x := by
  induction x using WithBot.recBotCoe with
  | bot =>
    induction y using WithBot.recBotCoe with
    | bot => simp [JSNumber.ofBest, JSNumber.sub, JSNumber.isPositive]
    | coe b =>
      have : JSNumber.ofBest (b : WithBot Int) = .fin b := rfl
      simp [this, JSNumber.ofBest, JSNumber.sub, JSNumber.isPositive]
  | coe a =>
    have ha : JSNumber.ofBest (a : WithBot Int) = .fin a := rfl
    induction y using WithBot.recBotCoe with
    | bot => simp [ha, JSNumber.ofBest, JSNumber.sub, JSNumber.isPositive]
    | coe b =>
      have hb : JSNumber.ofBest (b : WithBot Int) = .fin b := rfl
      simp [ha, hb, JSNumber.sub, JSNumber.isPositive]

theorem compareFn_not_positive_iff (a b : Snapshot) :
    (compareFn a b).isPositive = false ↔ bestShuffleRating b ≤ bestShuffleRating a := by
  unfold compareFn
  rw [highestSoloRating_eq, highestSoloRating_eq, sub_ofBest_isPositive]

theorem rankedView_pairwise (friendData : List Snapshot) :
    (rankedView friendData).Pairwise
      (fun a b => bestShuffleRating b ≤ bestShuffleRating a) := by
  haveI : IsTotal Snapshot (fun a b => (compareFn a b).isPositive = false) :=
    ⟨fun a b => by
      simp only [compareFn_not_positive_iff]
      exact le_total _ _⟩
  haveI : IsTrans Snapshot (fun a b => (compareFn a b).isPositive = false) :=
    ⟨fun a b c hab hbc => by
      simp only [compareFn_not_positive_iff] at *
      exact le_trans hbc hab⟩
  have h := List.sorted_insertionSort (fun a b => (compareFn a b).isPositive = false) friendData
  exact List.Pairwise.imp (fun {a b} hab => (compareFn_not_positive_iff a b).mp hab) h

/-! ## Lemmas on the seed-list parser -/

theorem foldl_setOf_mem (xs acc : List Str) (x : Str) :
    x ∈ xs.foldl (fun acc x => if x ∈ acc then acc else acc ++ [x]) acc ↔ x ∈ acc ∨ x ∈ xs := by
  induction xs generalizing acc with
  | nil => simp
  | cons y ys ih =>
    rw [List.foldl_cons, ih]
    by_cases hy : y ∈ acc
    · simp only [hy, if_true, List.mem_cons]
      constructor
      · rintro (h | h)
        · exact Or.inl h
        · exact Or.inr (Or.inr h)
      · rintro (h | h | h)
        · exact Or.inl h
        · exact Or.inl (h ▸ hy)
        · exact Or.inr h
    · simp only [hy, if_false, List.mem_append, List.mem_singleton, List.mem_cons]
      tauto

theorem mem_setOf (xs : List Str) (x : Str) : x ∈ setOf xs ↔ x ∈ xs := by
  unfold setOf
  rw [foldl_setOf_mem]
  simp

theorem foldl_setOf_nodup (xs acc : List Str) (h : acc.Nodup) :
    (xs.foldl (fun acc x => if x ∈ acc then acc else acc ++ [x]) acc).Nodup := by
  induction xs generalizing acc with
  | nil => exact h
  | cons y ys ih =>
    rw [List.foldl_cons]
    apply ih
    by_cases hy : y ∈ acc
    · simpa [hy] using h
    · simp only [hy, if_false]
      exact List.Nodup.append h (List.nodup_singleton y) (by simpa using hy)

/-- The lines that survive `new Set` are pairwise different. -/
theorem nodup_setOf (xs : List Str) : (setOf xs).Nodup :=
  foldl_setOf_nodup xs [] List.nodup_nil

theorem keepLine_iff (line : Str) :
    keepLine line = true ↔ trim line ≠ [] ∧ ¬ ∃ rest, line = '#' :: rest := by
  unfold keepLine startsWith
  have h : ("#".toList).isPrefixOf line = true ↔ ∃ rest, line = '#' :: rest := by
    rw [List.isPrefixOf_iff_prefix]
    constructor
    · rintro ⟨t, ht⟩
      exact ⟨t, ht.symm⟩
    · rintro ⟨rest, hrest⟩
      exact ⟨rest, hrest.symm⟩
  rw [← h]
  cases ("#".toList).isPrefixOf line <;> simp

/-! ## Lemmas on the roster handlers -/

theorem filterFrom_ne_of_lt {α : Type} (index : Int) (k : Nat) (l : List α)
    (h : index < k) :
    filterFrom (fun _ i => decide ((i : Int) ≠ index)) k l = l := by
  induction l generalizing k with
  | nil => rfl
  | cons x xs ih =>
    have hk : (k : Int) ≠ index := by omega
    simp only [filterFrom, hk, ne_eq, not_false_eq_true, decide_True, if_true]
    rw [ih (k + 1) (by push_cast; omega)]

theorem filterFrom_ne_of_ge {α : Type} (index : Int) (k : Nat) (l : List α)
    (h : (k : Int) + l.length ≤ index) :
    filterFrom (fun _ i => decide ((i : Int) ≠ index)) k l = l := by
  induction l generalizing k with
  | nil => rfl
  | cons x xs ih =>
    simp only [List.length_cons, Nat.cast_add, Nat.cast_one] at h
    have hk : (k : Int) ≠ index := by omega
    simp only [filterFrom, hk, ne_eq, not_false_eq_true, decide_True, if_true]
    rw [ih (k + 1) (by push_cast; omega)]

theorem filterFrom_ne_eraseIdx {α : Type} (k n : Nat) (l : List α) :
    filterFrom (fun _ i => decide ((i : Int) ≠ ((k + n : Nat) : Int))) k l = l.eraseIdx n := by
  induction l generalizing k n with
  | nil => rfl
  | cons x xs ih =>
    cases n with
    | zero =>
      simp only [filterFrom, Nat.add_zero, ne_eq, not_true_eq_false, decide_False,
        Bool.false_eq_true, if_false, List.eraseIdx_cons_zero]
      exact filterFrom_ne_of_lt _ _ _ (by push_cast; omega)
    | succ m =>
      have hk : (k : Int) ≠ ((k + (m + 1) : Nat) : Int) := by push_cast; omega
      simp only [filterFrom, hk, ne_eq, not_false_eq_true, decide_True, if_true,
        List.eraseIdx_cons_succ]
      have := ih (k + 1) m
      rw [show k + 1 + m = k + (m + 1) by omega] at this
      rw [this]

theorem addGuard_iff (a b key : Str) (friends : List Str) :
    (a != [] && b != [] && !friends.contains key) = true ↔ a ≠ [] ∧ b ≠ [] ∧ key ∉ friends := by
  simp [and_assoc]

/-! ## Lemmas on the bracket type token -/

theorem bracketType_path (p s : Str) (hs : '/' ∉ s) (hq : '?' ∉ s) :
    bracketType (p ++ '/' :: s) = s := by
  unfold bracketType
  rw [pop_split_append_sep, split_of_not_mem _ _ hs]
  show first (split '?' s) = s
  rw [split_of_not_mem _ _ hq]
  rfl

theorem bracketType_path_query (p s q : Str) (hs : '/' ∉ s) (hs2 : '?' ∉ s) (hq : '/' ∉ q) :
    bracketType (p ++ '/' :: (s ++ '?' :: q)) = s := by
  unfold bracketType
  have h : '/' ∉ s ++ '?' :: q := by
    simp only [List.mem_append, List.mem_cons, not_or]
    exact ⟨hs, by decide, hq⟩
  rw [pop_split_append_sep, split_of_not_mem _ _ h]
  show first (split '?' (s ++ '?' :: q)) = s
  rw [split_append_sep _ _ _ hs2]
  rfl

/-! ## Lemmas on the win rate -/

theorem roundHalfEven_err (t : ℚ) : |(roundHalfEven t : ℚ) - t| ≤ 1 / 2 := by
  have h1 := Int.floor_le t
  have h2 := Int.lt_floor_add_one t
  unfold roundHalfEven
  split_ifs with ha hb hc
  · rw [abs_le]; constructor <;> linarith
  · push_cast; rw [abs_le]; constructor <;> linarith
  · rw [abs_le]; constructor <;> linarith
  · push_cast; rw [abs_le]; constructor <;> linarith

theorem toDouble_err (q : ℚ) (hq : 0 < q) (hlo : (2 : ℚ) ^ (-1022 : ℤ) ≤ q) :
    |toDouble q - q| ≤ q / 2 ^ 53 := by
  have he : (2 : ℚ) ^ Int.log 2 q ≤ q := by
    simpa using Int.zpow_log_le_self (b := 2) (by norm_num) hq
  have habs : |q| = q := abs_of_pos hq
  have hum : (2 : ℚ) ^ max (Int.log 2 |q| - 52) (-1074) ≤ q / 2 ^ 52 := by
    rw [habs]
    rcases max_cases (Int.log 2 q - 52) (-1074) with ⟨h, -⟩ | ⟨h, -⟩
    · rw [h, zpow_sub₀ (by norm_num)]
      have : (2 : ℚ) ^ (52 : ℤ) = 2 ^ 52 := by norm_cast
      rw [this]
      gcongr
    · rw [h]
      have h52 : (2 : ℚ) ^ (-1074 : ℤ) = 2 ^ (-1022 : ℤ) / 2 ^ 52 := by
        rw [show (-1074 : ℤ) = -1022 - 52 by norm_num, zpow_sub₀ (by norm_num)]
        norm_cast
      rw [h52]
      gcongr
  have hu : (0 : ℚ) < 2 ^ max (Int.log 2 |q| - 52) (-1074) := by positivity
  have hr := roundHalfEven_err (q / 2 ^ max (Int.log 2 |q| - 52) (-1074))
  unfold toDouble
  rw [if_neg hq.ne']
  have key : (roundHalfEven (q / 2 ^ max (Int.log 2 |q| - 52) (-1074)) : ℚ)
        * 2 ^ max (Int.log 2 |q| - 52) (-1074) - q
      = ((roundHalfEven (q / 2 ^ max (Int.log 2 |q| - 52) (-1074)) : ℚ)
          - q / 2 ^ max (Int.log 2 |q| - 52) (-1074))
        * 2 ^ max (Int.log 2 |q| - 52) (-1074) := by
    field_simp
  rw [key, abs_mul, abs_of_pos hu]
  calc |(roundHalfEven (q / 2 ^ max (Int.log 2 |q| - 52) (-1074)) : ℚ)
          - q / 2 ^ max (Int.log 2 |q| - 52) (-1074)|
        * 2 ^ max (Int.log 2 |q| - 52) (-1074)
      ≤ 1 / 2 * (q / 2 ^ 52) := by gcongr
    _ = q / 2 ^ 53 := by ring


/-- The double computed for the win rate of `w` wins in `p` games is within
`3 w / 2 ^ 53` of the exact percentage, after multiplication by `p / 1000`. -/
theorem winRate_double_err (w p : ℚ) (hw : 1 ≤ w) (hp : 1 ≤ p) (hp2 : p ≤ 2 ^ 53) :
    0 < toDouble (toDouble (w / p) * 100) ∧
    |toDouble (toDouble (w / p) * 100) * 10 * p - 1000 * w| ≤ 3000 * w / 2 ^ 53 := by
  have hp0 : 0 < p := by linarith
  have hw0 : 0 < w := by linarith
  have hq : 0 < w / p := div_pos hw0 hp0
  have hqlo : (1 : ℚ) / 2 ^ 53 ≤ w / p := by
    rw [div_le_div_iff₀ (by positivity) hp0]
    nlinarith
  have h1022 : (2 : ℚ) ^ (-1022 : ℤ) ≤ 1 / 2 ^ 54 := by
    have : (1 : ℚ) / 2 ^ 54 = 2 ^ (-54 : ℤ) := by
      rw [zpow_neg, one_div]
      norm_cast
    rw [this]
    exact zpow_le_zpow_right₀ (by norm_num) (by norm_num)
  have h54 : (1 : ℚ) / 2 ^ 54 ≤ 1 / 2 ^ 53 := by
    apply one_div_le_one_div_of_le (by positivity)
    norm_num
  have e1 := toDouble_err (w / p) hq (by linarith)
  rw [abs_le] at e1
  have hx1lo : w / p / 2 ≤ toDouble (w / p) := by
    have : w / p / 2 ^ 53 ≤ w / p / 2 := by
      apply div_le_div_of_nonneg_left hq.le (by norm_num)
      norm_num
    linarith
  have hx1hi : toDouble (w / p) ≤ 2 * (w / p) := by
    have : w / p / 2 ^ 53 ≤ w / p := div_le_self hq.le (by norm_num)
    linarith
  have hy1 : 0 < toDouble (w / p) * 100 := by nlinarith
  have hy1lo : (2 : ℚ) ^ (-1022 : ℤ) ≤ toDouble (w / p) * 100 := by
    have : (1 : ℚ) / 2 ^ 54 = 1 / 2 ^ 53 / 2 := by norm_num
    nlinarith
  have e2 := toDouble_err (toDouble (w / p) * 100) hy1 hy1lo
  rw [abs_le] at e2
  have hpos : 0 < toDouble (toDouble (w / p) * 100) := by
    have : toDouble (w / p) * 100 / 2 ^ 53 ≤ toDouble (w / p) * 100 / 2 :=
      div_le_div_of_nonneg_left hy1.le (by norm_num) (by norm_num)
    linarith
  refine ⟨hpos, ?_⟩
  -- the error of the second rounding is at most 200 q / 2 ^ 53
  have hy1hi : toDouble (w / p) * 100 / 2 ^ 53 ≤ 200 * (w / p) / 2 ^ 53 := by
    apply div_le_div_of_nonneg_right _ (by positivity)
    linarith
  have hqp : w / p * p = w := div_mul_cancel₀ w hp0.ne'
  have hbound : |toDouble (toDouble (w / p) * 100) - 100 * (w / p)| ≤ 300 * (w / p) / 2 ^ 53 := by
    rw [abs_le]
    constructor
    · have : -(300 * (w / p) / 2 ^ 53) = -(200 * (w / p) / 2 ^ 53) - 100 * (w / p / 2 ^ 53) := by
        ring
      linarith [e1.1, e2.1]
    · have : 300 * (w / p) / 2 ^ 53 = 200 * (w / p) / 2 ^ 53 + 100 * (w / p / 2 ^ 53) := by ring
      linarith [e1.2, e2.2]
  have hrew : toDouble (toDouble (w / p) * 100) * 10 * p - 1000 * w
      = (toDouble (toDouble (w / p) * 100) - 100 * (w / p)) * (10 * p) := by
    rw [sub_mul]
    have : 100 * (w / p) * (10 * p) = 1000 * (w / p * p) := by ring
    rw [this, hqp]
    ring
  rw [hrew, abs_mul, abs_of_pos (by positivity : (0 : ℚ) < 10 * p)]
  calc |toDouble (toDouble (w / p) * 100) - 100 * (w / p)| * (10 * p)
      ≤ 300 * (w / p) / 2 ^ 53 * (10 * p) := by gcongr
    _ = 3000 * (w / p * p) / 2 ^ 53 := by ring
    _ = 3000 * w / 2 ^ 53 := by rw [hqp]


/-- The integer that `toFixed(1)` renders for the win rate of `w` wins in
`p` games is a nearest integer of the exact `1000 w / p`. -/
theorem winRate_nearest (w p : ℤ) (hw : 1 ≤ w) (hw2 : w ≤ 2 ^ 40) (hp : 1 ≤ p)
    (hp2 : p < 2 ^ 53) :
    |((⌊|toDouble (toDouble ((w : ℚ) / (p : ℚ)) * 100)| * 10 + 1 / 2⌋₊ : ℕ) : ℚ) / 10
        - (w : ℚ) / (p : ℚ) * 100| ≤ 1 / 20 := by
  have hwq : (1 : ℚ) ≤ w := by exact_mod_cast hw
  have hwq2 : (w : ℚ) ≤ 2 ^ 40 := by exact_mod_cast hw2
  have hpq : (1 : ℚ) ≤ p := by exact_mod_cast hp
  have hpq2 : (p : ℚ) ≤ 2 ^ 53 := by exact_mod_cast hp2.le
  have hp0 : (0 : ℚ) < p := by linarith
  obtain ⟨hpos, herr⟩ := winRate_double_err (w : ℚ) (p : ℚ) hwq hpq hpq2
  rw [abs_of_pos hpos]
  have hsmall : 3000 * (w : ℚ) / 2 ^ 53 < 1 / 2 := by
    rw [div_lt_iff₀ (by positivity)]
    nlinarith
  rw [abs_le] at herr
  set x := toDouble (toDouble ((w : ℚ) / (p : ℚ)) * 100) with hx
  set n : ℕ := ⌊x * 10 + 1 / 2⌋₊ with hn
  have hfl : (n : ℚ) ≤ x * 10 + 1 / 2 := Nat.floor_le (by positivity)
  have hlt : x * 10 + 1 / 2 < (n : ℚ) + 1 := Nat.lt_floor_add_one _
  have hflp : (n : ℚ) * p ≤ x * 10 * p + p / 2 := by
    have := mul_le_mul_of_nonneg_right hfl hp0.le
    linarith
  have hltp : x * 10 * p + p / 2 < (n : ℚ) * p + p := by
    have := mul_lt_mul_of_pos_right hlt hp0
    linarith
  have hupper : (n : ℚ) * p - 1000 * w ≤ p / 2 := by
    by_contra hcon
    rw [not_le] at hcon
    have hq : (p : ℚ) < 2 * ((n : ℤ) : ℚ) * p - 2000 * w := by
      push_cast
      linarith
    have hi : p < 2 * (n : ℤ) * p - 2000 * w := by exact_mod_cast hq
    have hi1 : p + 1 ≤ 2 * (n : ℤ) * p - 2000 * w := hi
    have hq1 : (p : ℚ) + 1 ≤ 2 * (n : ℚ) * p - 2000 * w := by exact_mod_cast hi1
    linarith [herr.2]
  have hlower : 1000 * (w : ℚ) - (n : ℚ) * p ≤ p / 2 := by
    by_contra hcon
    rw [not_le] at hcon
    have hq : (p : ℚ) < 2000 * w - 2 * ((n : ℤ) : ℚ) * p := by
      push_cast
      linarith
    have hi : p < 2000 * w - 2 * (n : ℤ) * p := by exact_mod_cast hq
    have hi1 : p + 1 ≤ 2000 * w - 2 * (n : ℤ) * p := hi
    have hq1 : (p : ℚ) + 1 ≤ 2000 * w - 2 * (n : ℚ) * p := by exact_mod_cast hi1
    linarith [herr.1]
  have hrew : (n : ℚ) / 10 - (w : ℚ) / p * 100 = ((n : ℚ) * p - 1000 * w) / (10 * p) := by
    field_simp
    ring
  rw [hrew, abs_le]
  constructor
  · rw [le_div_iff₀ (by positivity)]
    linarith
  · rw [div_le_iff₀ (by positivity)]
    linarith

theorem toDouble_zero : toDouble 0 = 0 := by
  simp [toDouble]

theorem roundHalfEven_eq (t : ℚ) (r : ℤ) (h1 : (r : ℚ) - 1 / 2 < t) (h2 : t < (r : ℚ) + 1 / 2) :
    roundHalfEven t = r := by
  rcases le_or_lt (r : ℚ) t with hle | hlt
  · have hf : ⌊t⌋ = r := by
      rw [Int.floor_eq_iff]
      constructor <;> linarith
    unfold roundHalfEven
    rw [hf, if_pos (by linarith)]
  · have hf : ⌊t⌋ = r - 1 := by
      rw [Int.floor_eq_iff]
      push_cast
      constructor <;> linarith
    unfold roundHalfEven
    rw [hf, if_neg (by push_cast; linarith), if_pos (by push_cast; linarith)]
    ring

theorem toDouble_eq (q : ℚ) (e r : ℤ) (hq : 0 < q) (h1 : (2 : ℚ) ^ e ≤ q)
    (h2 : q < (2 : ℚ) ^ (e + 1)) (he : -1022 ≤ e)
    (hr1 : (r : ℚ) - 1 / 2 < q / 2 ^ (e - 52)) (hr2 : q / 2 ^ (e - 52) < (r : ℚ) + 1 / 2) :
    toDouble q = r * 2 ^ (e - 52) := by
  have hlog : Int.log 2 |q| = e := by
    rw [abs_of_pos hq]
    have ha : e ≤ Int.log 2 q := (Int.zpow_le_iff_le_log (by norm_num) hq).mp (by exact_mod_cast h1)
    have hb : Int.log 2 q < e + 1 := (Int.lt_zpow_iff_log_lt (by norm_num) hq).mp (by exact_mod_cast h2)
    omega
  unfold toDouble
  rw [if_neg hq.ne', hlog, max_eq_left (by omega), roundHalfEven_eq _ r hr1 hr2]

/-- The win rate of 7 wins in 10 games is shown as `70.0`. -/
theorem winRate_seven_of_ten :
    winRate { played := 10, won := 7, lost := 3 } = "70.0".toList := by
  have a1 : toDouble ((7 : ℚ) / 10) = 6305039478318694 * 2 ^ (-1 - 52 : ℤ) :=
    toDouble_eq _ (-1) 6305039478318694 (by norm_num) (by norm_num) (by norm_num) (by norm_num)
      (by norm_num) (by norm_num)
  have a2 : toDouble ((6305039478318694 : ℚ) * 2 ^ (-1 - 52 : ℤ) * 100)
      = 4925812092436480 * 2 ^ (6 - 52 : ℤ) :=
    toDouble_eq _ 6 4925812092436480 (by norm_num) (by norm_num) (by norm_num) (by norm_num)
      (by norm_num) (by norm_num)
  have hpos : (0 : ℚ) < 4925812092436480 * 2 ^ (6 - 52 : ℤ) := by positivity
  have hfl : ⌊|(4925812092436480 : ℚ) * 2 ^ (6 - 52 : ℤ)| * 10 + 1 / 2⌋₊ = 700 := by
    rw [abs_of_pos hpos, Nat.floor_eq_iff (by positivity)]
    constructor <;> norm_num
  have hc : (((7 : ℤ) : ℚ) / ((10 : ℤ) : ℚ)) = 7 / 10 := by norm_num
  show (if (10 : ℤ) = 0 then "0.0".toList
    else toFixed1 (toDouble (toDouble (((7 : ℤ) : ℚ) / ((10 : ℤ) : ℚ)) * 100))) = _
  rw [if_neg (by norm_num), hc, a1, a2]
  unfold toFixed1
  rw [if_neg (not_lt.mpr hpos.le), hfl]
  decide

/-! ## Lemmas on the requests of `fetchFriendData` -/

/-- The value of the run is the value of `fetchFriendData`. -/
theorem fetchFriendDataRun_fst (env : Env) (accessToken : Option Str) (friendName server : Str) :
    (fetchFriendDataRun env accessToken friendName server).1
      = fetchFriendData env accessToken friendName server := by
  unfold fetchFriendDataRun fetchFriendData fetchFriendDataTry
  cases ht : resolveToken env accessToken with
  | error e => simp [bind, Except.bind]
  | ok token =>
    cases hp : env.profile server friendName token with
    | error e => simp [hp, bind, Except.bind]
    | ok profileResponse =>
      cases hm : env.media server friendName token with
      | error e => simp [hp, hm, bind, Except.bind]
      | ok media =>
        cases profileResponse with
        | none => simp [hp, hm, bind, Except.bind, pure, Except.pure]
        | some profile =>
          cases hs : env.pvpSummary server friendName token with
          | error e => simp [hp, hm, hs, bind, Except.bind]
          | ok summary => simp [hp, hm, hs, bind, Except.bind, pure, Except.pure]

theorem resolveToken_cached (env : Env) (t : Str) (ht : t ≠ []) :
    resolveToken env (some t) = .ok t := by
  simp [resolveToken, ht]

theorem tokenRequests_cached (t : Str) (ht : t ≠ []) : tokenRequests (some t) = [] := by
  simp [tokenRequests, ht]

theorem token_not_mem_mapFrom_bracketRequest (server friendName token : Str) (k : Nat)
    (brackets : List BracketRef) :
    Request.token ∉ mapFrom (bracketRequest server friendName token) k brackets := by
  induction brackets generalizing k with
  | nil => simp [mapFrom]
  | cons b bs ih =>
    simp only [mapFrom, List.mem_cons, not_or]
    exact ⟨by simp [bracketRequest], ih (k + 1)⟩

/-! ## Lemmas on ties in the ranking -/

/-- The snapshots of one best rating keep their order in the ranked view. -/
theorem rankedView_filter_eq (friendData : List Snapshot) (v : WithBot Int) :
    (rankedView friendData).filter (fun a => decide (bestShuffleRating a = v))
      = friendData.filter (fun a => decide (bestShuffleRating a = v)) := by
  have hpair : (friendData.filter (fun a => decide (bestShuffleRating a = v))).Pairwise
      (fun a b => (compareFn a b).isPositive = false) := by
    rw [List.pairwise_iff_forall_sublist]
    intro a b hab
    have ha : a ∈ friendData.filter (fun a => decide (bestShuffleRating a = v)) :=
      hab.subset (by simp)
    have hb : b ∈ friendData.filter (fun a => decide (bestShuffleRating a = v)) :=
      hab.subset (by simp)
    simp only [List.mem_filter, decide_eq_true_eq] at ha hb
    rw [compareFn_not_positive_iff, ha.2, hb.2]
  have hsub : List.Sublist (friendData.filter (fun a => decide (bestShuffleRating a = v)))
      (rankedView friendData) :=
    List.sublist_insertionSort hpair (List.filter_sublist _)
  have hsub2 := hsub.filter (fun a => decide (bestShuffleRating a = v))
  rw [List.filter_filter] at hsub2
  simp only [Bool.and_self] at hsub2
  have hperm : ((rankedView friendData).filter (fun a => decide (bestShuffleRating a = v))).Perm
      (friendData.filter (fun a => decide (bestShuffleRating a = v))) :=
    (List.perm_insertionSort _ friendData).filter _
  exact (hsub2.eq_of_length hperm.length_eq.symm).symm

/-- Two lists in descending order of the best rating that agree on the
snapshots of every best rating, in order, are equal. -/
theorem eq_of_sorted_of_filter_eq (l m : List Snapshot)
    (hl : l.Pairwise (fun a b => bestShuffleRating b ≤ bestShuffleRating a))
    (hm : m.Pairwise (fun a b => bestShuffleRating b ≤ bestShuffleRating a))
    (h : ∀ v : WithBot Int, l.filter (fun a => decide (bestShuffleRating a = v))
      = m.filter (fun a => decide (bestShuffleRating a = v))) : l = m := by
  induction l generalizing m with
  | nil =>
    cases m with
    | nil => rfl
    | cons y ys =>
      have := h (bestShuffleRating y)
      simp at this
  | cons x xs ih =>
    cases m with
    | nil =>
      have := h (bestShuffleRating x)
      simp at this
    | cons y ys =>
      have hxy : bestShuffleRating x ≤ bestShuffleRating y := by
        have hx : x ∈ (y :: ys).filter (fun a => decide (bestShuffleRating a = bestShuffleRating x)) := by
          rw [← h (bestShuffleRating x)]
          simp
        simp only [List.mem_filter, List.mem_cons, decide_eq_true_eq] at hx
        rcases hx.1 with rfl | hmem
        · exact le_rfl
        · exact (List.pairwise_cons.mp hm).1 x hmem
      have hyx : bestShuffleRating y ≤ bestShuffleRating x := by
        have hy : y ∈ (x :: xs).filter (fun a => decide (bestShuffleRating a = bestShuffleRating y)) := by
          rw [h (bestShuffleRating y)]
          simp
        simp only [List.mem_filter, List.mem_cons, decide_eq_true_eq] at hy
        rcases hy.1 with rfl | hmem
        · exact le_rfl
        · exact (List.pairwise_cons.mp hl).1 y hmem
      have hkey : bestShuffleRating x = bestShuffleRating y := le_antisymm hxy hyx
      have hhead := h (bestShuffleRating x)
      simp only [List.filter_cons, decide_True, if_true, hkey.symm] at hhead
      have hx : x = y := (List.cons.inj hhead).1
      subst hx
      congr 1
      apply ih ys (List.pairwise_cons.mp hl).2 (List.pairwise_cons.mp hm).2
      intro v
      have hv := h v
      simp only [List.filter_cons] at hv
      split_ifs at hv with hc
      · exact (List.cons.inj hv).2
      · exact hv

/-! ## Lemmas on `fetchFriendData` on response bodies -/

theorem allOrThrow_map_some {α : Type} (xs : List α) : allOrThrow (xs.map some) = some xs := by
  induction xs with
  | nil => rfl
  | cons x xs ih => simp [allOrThrow, ih]

theorem allOrThrow_of_isSome {α : Type} (l : List (Option α))
    (h : ∀ o ∈ l, o.isSome = true) : ∃ xs, allOrThrow l = some xs ∧ l = xs.map some := by
  induction l with
  | nil => exact ⟨[], rfl, rfl⟩
  | cons o rest ih =>
    obtain ⟨xs, hxs, hrest⟩ := ih (fun o ho => h o (List.mem_cons_of_mem _ ho))
    cases o with
    | none => exact absurd (h none (List.mem_cons_self _ _)) (by simp)
    | some x => exact ⟨x :: xs, by simp [allOrThrow, hxs], by simp [hrest]⟩

theorem mem_mapFrom {α β : Type} (f : α → Nat → β) (k : Nat) (l : List α) (y : β)
    (h : y ∈ mapFrom f k l) : ∃ (i : Nat) (hi : i < l.length), y = f l[i] (k + i) := by
  induction l generalizing k with
  | nil => simp [mapFrom] at h
  | cons x xs ih =>
    simp only [mapFrom, List.mem_cons] at h
    rcases h with rfl | h
    · exact ⟨0, by simp, by simp⟩
    · obtain ⟨i, hi, hy⟩ := ih (k + 1) h
      refine ⟨i + 1, by simpa using hi, ?_⟩
      rw [hy]
      simp only [List.getElem_cons_succ]
      congr 1
      omega

theorem mapFrom_map {α β γ : Type} (f : β → Nat → γ) (g : α → β) (k : Nat) (l : List α) :
    mapFrom f k (l.map g) = mapFrom (fun x i => f (g x) i) k l := by
  induction l generalizing k with
  | nil => rfl
  | cons x xs ih => simp [mapFrom, ih]

theorem mapFrom_congr {α β : Type} (f g : α → Nat → β) (k : Nat) (l : List α)
    (h : ∀ x i, f x i = g x i) : mapFrom f k l = mapFrom g k l := by
  induction l generalizing k with
  | nil => rfl
  | cons x xs ih => simp [mapFrom, ih, h]

theorem map_mapFrom {α β γ : Type} (f : α → Nat → β) (g : β → γ) (k : Nat) (l : List α) :
    (mapFrom f k l).map g = mapFrom (fun x i => g (f x i)) k l := by
  induction l generalizing k with
  | nil => rfl
  | cons x xs ih => simp [mapFrom, ih]

theorem findAvatar_map_some (assets : List Asset) :
    findAvatar (assets.map some)
      = some (assets.find? (fun asset => asset.key = "avatar".toList)) := by
  induction assets with
  | nil => rfl
  | cons a rest ih =>
    simp only [List.map_cons, findAvatar, List.find?_cons]
    by_cases h : a.key = "avatar".toList
    · rw [if_pos h, decide_eq_true h]
    · rw [if_neg h, decide_eq_false h, ih]

theorem avatarOfBody_map_some (assets : List Asset) :
    avatarOfBody (some (assets.map some)) = some (avatarOf assets) := by
  simp only [avatarOfBody, findAvatar_map_some, avatarOf]
  cases assets.find? (fun asset => asset.key = "avatar".toList) with
  | none => rfl
  | some asset =>
    cases hv : asset.value with
    | none => simp [hv]
    | some v =>
      by_cases hnil : v = []
      · simp [hv, hnil]
      · simp [hv, hnil]

theorem bracketPromise_toRaw (env : Env) (server friendName token : Str) (b : BracketRef)
    (i : Nat) :
    bracketPromise env.toRaw server friendName token (some b) i
      = some { type := (fetchBracket env server friendName token b i).type,
               data := some (fetchBracket env server friendName token b i).data } := by
  simp only [bracketPromise, Env.toRaw, fetchBracket]
  cases env.pvpBracket i server friendName (bracketType b.href) token <;> rfl

/-- On bodies with every part present the function is `fetchFriendData` on
the payload records. -/
theorem fetchFriendDataRaw_toRaw (env : Env) (accessToken : Option Str)
    (friendName server : Str) :
    fetchFriendDataRaw env.toRaw accessToken friendName server
      = fetchFriendData env accessToken friendName server := by
  have hresolve : resolveTokenRaw env.toRaw accessToken = resolveToken env accessToken := rfl
  have hpromises : ∀ token (brackets : List BracketRef),
      allOrThrow (mapFrom (bracketPromise env.toRaw server friendName token) 0
          (brackets.map some))
        = some ((mapFrom (fetchBracket env server friendName token) 0 brackets).map
            (fun r => ({ type := r.type, data := some r.data } : BracketResponse))) := by
    intro token brackets
    rw [mapFrom_map, map_mapFrom, ← allOrThrow_map_some, map_mapFrom]
    congr 1
    exact mapFrom_congr _ _ _ _ (fun b i => bracketPromise_toRaw env server friendName token b i)
  unfold fetchFriendDataRaw fetchFriendData fetchFriendDataTry
  rw [hresolve]
  cases ht : resolveToken env accessToken with
  | error e => simp [bind, Except.bind]
  | ok token =>
    cases hp : env.profile server friendName token with
    | error e => simp [Env.toRaw, hp, bind, Except.bind]
    | ok profileResponse =>
      cases hm : env.media server friendName token with
      | error e => simp [Env.toRaw, hp, hm, bind, Except.bind]
      | ok media =>
        cases profileResponse with
        | none => simp [Env.toRaw, hp, hm, bind, Except.bind, pure, Except.pure]
        | some profile =>
          cases hs : env.pvpSummary server friendName token with
          | error e => simp [Env.toRaw, hp, hm, hs, bind, Except.bind]
          | ok summary =>
            have h1 := hpromises token summary.brackets
            have h2 : allOrThrow
                (((mapFrom (fetchBracket env server friendName token) 0 summary.brackets).map
                    (fun r => ({ type := r.type, data := some r.data } : BracketResponse))).map
                  formatBracketResponse)
                = some ((mapFrom (fetchBracket env server friendName token) 0
                    summary.brackets).map formatBracket) := by
              rw [List.map_map, ← allOrThrow_map_some, List.map_map]
              rfl
            have h3 := avatarOfBody_map_some media.assets
            simp only [Env.toRaw, hp, hm, hs, bind, Except.bind, pure, Except.pure,
              Option.map_some', ProfileData.toBody] at h1 h3 ⊢
            simp only [h1, h2, h3]


theorem bracketPromise_error (env : RawEnv) (server friendName token : Str) (b : BracketRef)
    (i : Nat) (e : FetchError)
    (h : env.pvpBracket i server friendName (bracketType b.href) token = .error e) :
    bracketPromise env server friendName token (some b) i
      = some { type := bracketType b.href, data := some zeroData } := by
  simp only [bracketPromise, h]

theorem bracketPromise_ok (env : RawEnv) (server friendName token : Str) (b : BracketRef)
    (i : Nat) (data : Option BracketData)
    (h : env.pvpBracket i server friendName (bracketType b.href) token = .ok data) :
    bracketPromise env server friendName token (some b) i
      = some { type := bracketType b.href, data := data } := by
  simp only [bracketPromise, h]

theorem toRaw_pvpBracket_ne_null (env : Env) (i : Nat) (server friendName bracketType token : Str) :
    env.toRaw.pvpBracket i server friendName bracketType token ≠ .ok none := by
  simp only [Env.toRaw]
  cases env.pvpBracket i server friendName bracketType token <;> simp

/-! ## The claims -/

/-- C1: whenever `fetchFriendData` returns a snapshot, it has obtained a
token and the summary payload, the snapshot has exactly as many bracket
entries as the summary enumerates brackets, whatever the outcome of each
bracket request, and the type of the `i`-th entry is the type token
derived from the `i`-th enumerated reference. -/
theorem fetchFriendData_brackets_length (env : Env) (accessToken : Option Str)
    (friendName server : Str) (snapshot : Snapshot)
    (h : fetchFriendData env accessToken friendName server = some snapshot) :
    ∃ token summary,
      resolveToken env accessToken = .ok token ∧
      env.pvpSummary server friendName token = .ok summary ∧
      snapshot.brackets.length = summary.brackets.length ∧
      ∀ (i : Nat) (h1 : i < snapshot.brackets.length) (h2 : i < summary.brackets.length),
        (snapshot.brackets[i]).type = bracketType (summary.brackets[i]).href := by
  obtain ⟨token, profile, media, summary, ht, -, -, hs, hb⟩ :=
    fetchFriendData_eq_some env accessToken friendName server snapshot h
  refine ⟨token, summary, ht, hs, ?_, ?_⟩
  · rw [hb, List.length_map, length_mapFrom]
  · intro i h1 h2
    simp only [hb, List.getElem_map, formatBracket_type]
    rw [getElem_mapFrom _ _ _ _ (by simpa [length_mapFrom] using h2) h2, fetchBracket_type]

/-- Witness of C1: the scenario, where a snapshot is returned. -/
theorem fetchFriendData_brackets_length_witness :
    fetchFriendData scenarioEnv none "atlas".toList "tarren-mill".toList = some scenarioSnapshot ∧
    ∃ token summary,
      resolveToken scenarioEnv none = .ok token ∧
      scenarioEnv.pvpSummary "tarren-mill".toList "atlas".toList token = .ok summary ∧
      scenarioSnapshot.brackets.length = summary.brackets.length ∧
      ∀ (i : Nat) (h1 : i < scenarioSnapshot.brackets.length) (h2 : i < summary.brackets.length),
        (scenarioSnapshot.brackets[i]).type = bracketType (summary.brackets[i]).href :=
  ⟨by decide,
    fetchFriendData_brackets_length scenarioEnv none "atlas".toList "tarren-mill".toList
      scenarioSnapshot (by decide)⟩

/-- C2 as stated fails: in the scenario with the `3v3` detail answered by a
response whose body is `null`, the profile, the media and the summary are
obtained and only the `3v3` detail cannot be read, yet the build returns
`null`; it also returns `null` when the summary body has no `brackets`, and
when the profile body is falsy. -/
theorem fetchFriendDataRaw_unusable_body_fails_build :
    (nullBodyEnv.profile "tarren-mill".toList "atlas".toList "token".toList
        = .ok (some scenarioProfile.toBody) ∧
      nullBodyEnv.media "tarren-mill".toList "atlas".toList "token".toList
        = .ok { assets := some (scenarioMedia.assets.map some) } ∧
      nullBodyEnv.pvpSummary "tarren-mill".toList "atlas".toList "token".toList
        = .ok { brackets := some (scenarioSummary.brackets.map some) } ∧
      nullBodyEnv.pvpBracket 2 "tarren-mill".toList "atlas".toList "3v3".toList "token".toList
        = .ok none ∧
      fetchFriendDataRaw nullBodyEnv none "atlas".toList "tarren-mill".toList = none) ∧
    (noBracketsEnv.profile "tarren-mill".toList "atlas".toList "token".toList
        = .ok (some scenarioProfile.toBody) ∧
      noBracketsEnv.media "tarren-mill".toList "atlas".toList "token".toList
        = .ok { assets := some (scenarioMedia.assets.map some) } ∧
      noBracketsEnv.pvpSummary "tarren-mill".toList "atlas".toList "token".toList
        = .ok { brackets := none } ∧
      fetchFriendDataRaw noBracketsEnv none "atlas".toList "tarren-mill".toList = none) ∧
    (falsyProfileEnv.profile "tarren-mill".toList "atlas".toList "token".toList = .ok none ∧
      fetchFriendDataRaw falsyProfileEnv none "atlas".toList "tarren-mill".toList = none) := by
  refine ⟨⟨rfl, rfl, rfl, rfl, ?_⟩, ⟨rfl, rfl, rfl, ?_⟩, ⟨rfl, ?_⟩⟩ <;> decide

/-- C2 amended: when the token is obtained, the profile, media and summary
requests succeed with bodies of which every part the code dereferences is
present (a truthy profile body with realm, class and faction name, media
assets without `null` entry, enumerated brackets each with an `href`), and
no bracket request is answered by a response with an absent body,
`fetchFriendData` returns a snapshot whatever bracket requests are rejected;
the snapshot has one entry per enumerated bracket, the entry of a bracket
whose request is rejected has that bracket's type, rating 0 and statistics
0, 0, 0, and the entry of a bracket whose request is answered is the
formatted entry of its own payload. -/
theorem fetchFriendDataRaw_bracket_failure_isolated (env : RawEnv) (accessToken : Option Str)
    (friendName server token : Str) (profile : ProfileBody)
    (realmSlug className factionName : Str) (media : MediaBody) (assets : List Asset)
    (summary : PvpSummaryBody) (refs : List BracketRef)
    (ht : resolveTokenRaw env accessToken = .ok token)
    (hp : env.profile server friendName token = .ok (some profile))
    (hrealm : profile.realmSlug = some realmSlug)
    (hclass : profile.className = some className)
    (hfaction : profile.factionName = some factionName)
    (hm : env.media server friendName token = .ok media)
    (hassets : media.assets = some (assets.map some))
    (hs : env.pvpSummary server friendName token = .ok summary)
    (hrefs : summary.brackets = some (refs.map some))
    (hbody : ∀ (i : Nat) (h : i < refs.length),
      env.pvpBracket i server friendName (bracketType (refs[i]).href) token ≠ .ok none) :
    ∃ snapshot, fetchFriendDataRaw env accessToken friendName server = some snapshot ∧
      snapshot.brackets.length = refs.length ∧
      ∀ (i : Nat) (h1 : i < snapshot.brackets.length) (h2 : i < refs.length),
        (∀ e, env.pvpBracket i server friendName (bracketType (refs[i]).href) token
              = .error e →
          snapshot.brackets[i] =
            { type := bracketType (refs[i]).href, rating := 0,
              statistics := { played := 0, won := 0, lost := 0 } }) ∧
        (∀ data, env.pvpBracket i server friendName (bracketType (refs[i]).href) token
              = .ok (some data) →
          snapshot.brackets[i] =
            formatBracket { type := bracketType (refs[i]).href, data := data }) := by
  -- the promises all resolve
  have hP : ∀ o ∈ mapFrom (bracketPromise env server friendName token) 0 (refs.map some),
      o.isSome = true := by
    intro o ho
    obtain ⟨i, hi, rfl⟩ := mem_mapFrom _ _ _ _ ho
    simp only [List.getElem_map, bracketPromise]
    split <;> rfl
  obtain ⟨R, hR, hPR⟩ := allOrThrow_of_isSome _ hP
  have hlenR : R.length = refs.length := by
    have := congrArg List.length hPR
    simpa [length_mapFrom] using this.symm
  have hRi : ∀ (i : Nat) (h : i < refs.length) (hR : i < R.length),
      bracketPromise env server friendName token (some refs[i]) i = some R[i] := by
    intro i h _
    have h1 : i < (mapFrom (bracketPromise env server friendName token) 0
        (refs.map some)).length := by simpa [length_mapFrom] using h
    have h2 := List.getElem_of_eq hPR h1
    rw [getElem_mapFrom _ _ _ _ h1 (by simpa using h)] at h2
    simpa using h2
  -- no resolved promise carries an absent body
  have hQ : ∀ o ∈ R.map formatBracketResponse, o.isSome = true := by
    intro o ho
    obtain ⟨r, hr, rfl⟩ := List.mem_map.mp ho
    obtain ⟨i, hi, rfl⟩ := List.getElem_of_mem hr
    have hi' : i < refs.length := hlenR ▸ hi
    have hprom := hRi i hi' hi
    cases hb : env.pvpBracket i server friendName (bracketType (refs[i]).href) token with
    | error e =>
      rw [bracketPromise_error _ _ _ _ _ _ e hb, Option.some.injEq] at hprom
      rw [← hprom]
      rfl
    | ok data =>
      rw [bracketPromise_ok _ _ _ _ _ _ data hb, Option.some.injEq] at hprom
      rw [← hprom]
      cases data with
      | none => exact absurd hb (hbody i hi')
      | some d => rfl
  obtain ⟨F, hF, hQF⟩ := allOrThrow_of_isSome _ hQ
  have hlenF : F.length = refs.length := by
    have := congrArg List.length hQF
    simp only [List.length_map] at this
    omega
  have hFi : ∀ (i : Nat) (hR : i < R.length) (hF : i < F.length),
      formatBracketResponse R[i] = some F[i] := by
    intro i hR _
    have h1 : i < (R.map formatBracketResponse).length := by
      simpa using hR
    have h2 := List.getElem_of_eq hQF h1
    simpa using h2
  have havatar := avatarOfBody_map_some assets
  refine ⟨{ character :=
              { name := profile.name, realmSlug := realmSlug, className := className,
                avatar := avatarOf assets }
            factionType := env.toUpperCase factionName
            brackets := F
            rank := "N/A".toList }, ?_, hlenF, ?_⟩
  · unfold fetchFriendDataRaw
    simp only [ht, hp, hm, hs, hrefs, hR, hF, hrealm, hclass, hfaction, hassets, havatar]
  · intro i h1 h2
    have hprom := hRi i h2 (hlenR ▸ h2)
    have hfmt := hFi i (hlenR ▸ h2) h1
    constructor
    · intro e he
      rw [bracketPromise_error _ _ _ _ _ _ e he, Option.some.injEq] at hprom
      rw [← hprom] at hfmt
      simp only [formatBracketResponse, Option.some.injEq] at hfmt
      show F[i] = _
      rw [← hfmt, formatBracket_zeroData]
    · intro data hd
      rw [bracketPromise_ok _ _ _ _ _ _ (some data) hd, Option.some.injEq] at hprom
      rw [← hprom] at hfmt
      simp only [formatBracketResponse, Option.some.injEq] at hfmt
      show F[i] = _
      rw [← hfmt]

/-- Witness of C2 amended: the scenario of the specification; of the brackets
`shuffle-mage-fire`, `2v2`, `3v3` only the `3v3` request is rejected, and
the snapshot has three entries, the `3v3` one all zero. -/
theorem fetchFriendDataRaw_bracket_failure_isolated_witness :
    (resolveTokenRaw scenarioEnv.toRaw none = .ok "token".toList ∧
      scenarioEnv.toRaw.profile "tarren-mill".toList "atlas".toList "token".toList
        = .ok (some scenarioProfile.toBody) ∧
      scenarioEnv.toRaw.media "tarren-mill".toList "atlas".toList "token".toList
        = .ok { assets := some (scenarioMedia.assets.map some) } ∧
      scenarioEnv.toRaw.pvpSummary "tarren-mill".toList "atlas".toList "token".toList
        = .ok { brackets := some (scenarioSummary.brackets.map some) } ∧
      scenarioEnv.toRaw.pvpBracket 2 "tarren-mill".toList "atlas".toList "3v3".toList
        "token".toList = .error .notFound) ∧
    (fetchFriendDataRaw scenarioEnv.toRaw none "atlas".toList "tarren-mill".toList).map
        Snapshot.brackets
      = some
          [{ type := "shuffle-mage-fire".toList, rating := 2100,
             statistics := { played := 120, won := 70, lost := 50 } },
           { type := "2v2".toList, rating := 1800,
             statistics := { played := 10, won := 7, lost := 3 } },
           { type := "3v3".toList, rating := 0,
             statistics := { played := 0, won := 0, lost := 0 } }] ∧
    ∃ snapshot,
      fetchFriendDataRaw scenarioEnv.toRaw none "atlas".toList "tarren-mill".toList
        = some snapshot ∧
      snapshot.brackets.length = scenarioSummary.brackets.length ∧
      ∀ (i : Nat) (h1 : i < snapshot.brackets.length) (h2 : i < scenarioSummary.brackets.length),
        (∀ e, scenarioEnv.toRaw.pvpBracket i "tarren-mill".toList "atlas".toList
              (bracketType (scenarioSummary.brackets[i]).href) "token".toList = .error e →
          snapshot.brackets[i] =
            { type := bracketType (scenarioSummary.brackets[i]).href, rating := 0,
              statistics := { played := 0, won := 0, lost := 0 } }) ∧
        (∀ data, scenarioEnv.toRaw.pvpBracket i "tarren-mill".toList "atlas".toList
              (bracketType (scenarioSummary.brackets[i]).href) "token".toList
              = .ok (some data) →
          snapshot.brackets[i] =
            formatBracket { type := bracketType (scenarioSummary.brackets[i]).href, data := data }) :=
  ⟨⟨rfl, rfl, rfl, rfl, rfl⟩, by decide,
    fetchFriendDataRaw_bracket_failure_isolated scenarioEnv.toRaw none "atlas".toList
      "tarren-mill".toList "token".toList scenarioProfile.toBody "tarren-mill".toList
      "Mage".toList "Horde".toList { assets := some (scenarioMedia.assets.map some) }
      scenarioMedia.assets { brackets := some (scenarioSummary.brackets.map some) }
      scenarioSummary.brackets rfl rfl rfl rfl rfl rfl rfl rfl rfl
      (fun i _ => toRaw_pvpBracket_ne_null scenarioEnv i _ _ _ _)⟩

/-- C3: the formatted entry of a fetched payload with type token `t` keeps
`t`, has the payload's rating or 0 when absent, and takes played, won and
lost from the round statistics when `t` contains `shuffle` and from the
match statistics otherwise, a missing record or field giving 0. -/
theorem formatBracket_selects_statistics (t : Str) (data : BracketData) :
    ∃ stats : Option StatisticsData,
      ((∃ pre post, t = pre ++ "shuffle".toList ++ post) →
        stats = data.season_round_statistics) ∧
      ((¬ ∃ pre post, t = pre ++ "shuffle".toList ++ post) →
        stats = data.season_match_statistics) ∧
      formatBracket { type := t, data := data } =
        { type := t
          rating := data.rating.getD 0
          statistics :=
            { played := (stats.bind StatisticsData.played).getD 0
              won := (stats.bind StatisticsData.won).getD 0
              lost := (stats.bind StatisticsData.lost).getD 0 } } := by
  by_cases h : includes t "shuffle".toList = true
  · refine ⟨data.season_round_statistics, fun _ => rfl, fun hn => ?_, ?_⟩
    · exact absurd ((includes_iff _ _).mp h) hn
    · simp only [formatBracket, h, if_true, orZero_eq_getD, optField_eq_bind]
  · refine ⟨data.season_match_statistics, fun hy => ?_, fun _ => rfl, ?_⟩
    · exact absurd ((includes_iff _ _).mpr hy) h
    · simp only [formatBracket, h, orZero_eq_getD, optField_eq_bind]
      rfl

/-- C4: the ranked view is a permutation of the roster in which the best
shuffle rating of an entry is at least that of every later entry; a
snapshot without shuffle bracket has the floor value, which is below every
rating, so no snapshot without shuffle bracket precedes one that has
one. -/
theorem rankedView_sorted_by_best_shuffle (friendData : List Snapshot) :
    (rankedView friendData).Perm friendData ∧
    (rankedView friendData).Pairwise
      (fun a b => bestShuffleRating b ≤ bestShuffleRating a) ∧
    (∀ a : Snapshot, shuffleRatings a = [] → ∀ r : Int, bestShuffleRating a < (r : WithBot Int)) ∧
    (rankedView friendData).Pairwise
      (fun a b => shuffleRatings a = [] → shuffleRatings b = []) := by
  refine ⟨List.perm_insertionSort _ _, rankedView_pairwise friendData, ?_, ?_⟩
  · intro a ha r
    unfold bestShuffleRating
    rw [ha, List.maximum_nil]
    exact WithBot.bot_lt_coe r
  · refine List.Pairwise.imp (fun {a b} hab ha => ?_) (rankedView_pairwise friendData)
    unfold bestShuffleRating at hab
    rw [ha, List.maximum_nil, le_bot_iff] at hab
    exact List.maximum_eq_bot.mp hab

/-- C5, at the failing input: two lines that differ only in the white space
around the comma survive the removal of duplicates and give the same
identity twice, and the loader enters the same key twice in the roster. -/
theorem characters_duplicate_identity :
    characters scenarioEnv "atlas,tarren mill\natlas , tarren mill".toList
      = [{ character := "atlas".toList, server := some "tarren mill".toList },
         { character := "atlas".toList, server := some "tarren mill".toList }] ∧
    (loadTrackedCharacters scenarioEnv emptyState
        (some "atlas,tarren mill\natlas , tarren mill".toList)).friends
      = ["atlas-tarren mill".toList, "atlas-tarren mill".toList] := by
  decide

/-- C6 as stated fails: a comment line with leading white space passes the
filter and is parsed as an identity. -/
theorem characters_indented_comment :
    trim "  # comment".toList = "# comment".toList ∧
    characters scenarioEnv "atlas,tarren mill\n  # comment".toList
      = [{ character := "atlas".toList, server := some "tarren mill".toList },
         { character := "# comment".toList, server := none }] := by
  decide

/-- C6 amended: the parsed identities are exactly those of the lines that
are not blank and whose first character is not `#`; no blank line and no
line starting with `#` produces an identity. -/
theorem characters_from_kept_lines (env : Env) (text : Str) (c : TrackedCharacter) :
    c ∈ characters env text ↔
      ∃ line, line ∈ split '\n' text ∧ trim line ≠ [] ∧ (¬ ∃ rest, line = '#' :: rest) ∧
        c = parseLine (env.toLowerCase (trim line)) := by
  unfold characters
  simp only [List.mem_map, mem_setOf, List.mem_filter, keepLine_iff, normalize]
  constructor
  · rintro ⟨n, ⟨line, ⟨hl, hk1, hk2⟩, rfl⟩, rfl⟩
    exact ⟨line, hl, hk1, hk2, rfl⟩
  · rintro ⟨line, hl, hk1, hk2, rfl⟩
    exact ⟨_, ⟨line, ⟨hl, hk1, hk2⟩, rfl⟩, rfl⟩

/-- C7: `handleAddFriend` either leaves the key list and the snapshot list
unchanged, or the normalized key was absent, the build succeeded, and
exactly that key and that snapshot are appended at the end; when the key is
already present the whole state is unchanged, when the build fails both
lists are unchanged, and when name and server are not empty, the key is
absent and the build succeeds, the key and the snapshot are appended. -/
theorem handleAddFriend_roster (env : Env) (st : AppState) :
    ((handleAddFriend env st).friends = st.friends ∧
        (handleAddFriend env st).friendData = st.friendData ∨
      friendKey (normalize env st.newFriend) (normalize env st.newServer) ∉ st.friends ∧
        ∃ data,
          fetchFriendData env st.accessToken (normalize env st.newFriend)
              (normalize env st.newServer) = some data ∧
          (handleAddFriend env st).friends
            = st.friends ++ [friendKey (normalize env st.newFriend) (normalize env st.newServer)] ∧
          (handleAddFriend env st).friendData = st.friendData ++ [data]) ∧
    (friendKey (normalize env st.newFriend) (normalize env st.newServer) ∈ st.friends →
      handleAddFriend env st = st) ∧
    (fetchFriendData env st.accessToken (normalize env st.newFriend)
          (normalize env st.newServer) = none →
      (handleAddFriend env st).friends = st.friends ∧
        (handleAddFriend env st).friendData = st.friendData) ∧
    (∀ data, normalize env st.newFriend ≠ [] → normalize env st.newServer ≠ [] →
      friendKey (normalize env st.newFriend) (normalize env st.newServer) ∉ st.friends →
      fetchFriendData env st.accessToken (normalize env st.newFriend)
          (normalize env st.newServer) = some data →
      (handleAddFriend env st).friends
          = st.friends ++ [friendKey (normalize env st.newFriend) (normalize env st.newServer)] ∧
        (handleAddFriend env st).friendData = st.friendData ++ [data]) := by
  by_cases hguard : (normalize env st.newFriend != [] && normalize env st.newServer != [] &&
      !st.friends.contains
        (friendKey (normalize env st.newFriend) (normalize env st.newServer))) = true
  · have hg := hguard
    rw [addGuard_iff] at hg
    obtain ⟨h1, h2, h3⟩ := hg
    cases hb : fetchFriendData env st.accessToken (normalize env st.newFriend)
        (normalize env st.newServer) with
    | none =>
      have hres : (handleAddFriend env st).friends = st.friends ∧
          (handleAddFriend env st).friendData = st.friendData := by
        simp only [handleAddFriend, hguard, if_true, hb, and_self]
      exact ⟨Or.inl hres, fun hmem => absurd hmem h3, fun _ => hres,
        fun data _ _ _ hd => by simp at hd⟩
    | some data =>
      have hres : (handleAddFriend env st).friends
            = st.friends ++ [friendKey (normalize env st.newFriend) (normalize env st.newServer)] ∧
          (handleAddFriend env st).friendData = st.friendData ++ [data] := by
        simp only [handleAddFriend, hguard, if_true, hb, and_self]
      refine ⟨Or.inr ⟨h3, data, rfl, hres⟩, fun hmem => absurd hmem h3, fun hn => by simp at hn,
        fun d _ _ _ hd => ?_⟩
      simp only [Option.some.injEq] at hd
      rw [← hd]
      exact hres
  · have hres : handleAddFriend env st = st := by
      simp only [handleAddFriend, hguard, Bool.false_eq_true, if_false]
    refine ⟨Or.inl (by rw [hres]; exact ⟨rfl, rfl⟩), fun _ => hres, fun _ => by rw [hres]; exact ⟨rfl, rfl⟩,
      fun data h1 h2 h3 _ => ?_⟩
    exfalso
    apply hguard
    rw [addGuard_iff]
    exact ⟨h1, h2, h3⟩

/-- Witness of C7: adding ` Atlas ` on `Tarren-Mill` to the empty roster
appends the key `atlas-tarren-mill` and the snapshot built. -/
theorem handleAddFriend_roster_witness :
    (handleAddFriend scenarioEnv
        { emptyState with newFriend := " Atlas ".toList, newServer := "Tarren-Mill".toList }).friends
      = ["atlas-tarren-mill".toList] ∧
    (handleAddFriend scenarioEnv
        { emptyState with newFriend := " Atlas ".toList, newServer := "Tarren-Mill".toList }).friendData
      = [scenarioSnapshot] :=
  (handleAddFriend_roster scenarioEnv
      { emptyState with newFriend := " Atlas ".toList, newServer := "Tarren-Mill".toList }).2.2.2
    scenarioSnapshot (by decide) (by decide) (by decide) (by decide)

/-- C8 as stated fails: removing a key that is not in the roster with an
index inside the snapshot list drops the snapshot at that index. -/
theorem handleRemoveFriend_absent_key_drops_snapshot :
    "ghost-nowhere".toList ∉ ["atlas-tarren-mill".toList] ∧
    (handleRemoveFriend
        { emptyState with friends := ["atlas-tarren-mill".toList], friendData := [scenarioSnapshot] }
        "ghost-nowhere".toList 0).friends = ["atlas-tarren-mill".toList] ∧
    (handleRemoveFriend
        { emptyState with friends := ["atlas-tarren-mill".toList], friendData := [scenarioSnapshot] }
        "ghost-nowhere".toList 0).friendData = [] := by
  decide

/-- C8 amended: for a key that is not in the roster, `handleRemoveFriend`
leaves the key list unchanged; the snapshot list is unchanged when the index
is not a position of the snapshot list, and otherwise loses exactly the
snapshot at that position. -/
theorem handleRemoveFriend_absent_key (st : AppState) (friendToRemove : Str) (index : Int)
    (h : friendToRemove ∉ st.friends) :
    (handleRemoveFriend st friendToRemove index).friends = st.friends ∧
    ((index < 0 ∨ (st.friendData.length : Int) ≤ index) →
      (handleRemoveFriend st friendToRemove index).friendData = st.friendData) ∧
    (∀ n : Nat, index = (n : Int) → n < st.friendData.length →
      (handleRemoveFriend st friendToRemove index).friendData = st.friendData.eraseIdx n ∧
      (handleRemoveFriend st friendToRemove index).friendData ≠ st.friendData) := by
  refine ⟨?_, ?_, ?_⟩
  · simp only [handleRemoveFriend]
    rw [List.filter_eq_self]
    intro a ha
    simp only [bne_iff_ne, ne_eq]
    rintro rfl
    exact h ha
  · rintro (hlt | hge)
    · exact filterFrom_ne_of_lt index 0 _ (by simpa using hlt)
    · exact filterFrom_ne_of_ge index 0 _ (by simpa using hge)
  · intro n hn hlt
    have h1 : (handleRemoveFriend st friendToRemove index).friendData
        = st.friendData.eraseIdx n := by
      simp only [handleRemoveFriend, hn]
      have := filterFrom_ne_eraseIdx 0 n st.friendData
      simpa using this
    refine ⟨h1, fun heq => ?_⟩
    have hlen := congrArg List.length heq
    rw [h1, List.length_eraseIdx_of_lt hlt] at hlen
    omega

/-- Witness of C8 amended: an absent key and the index 5 on a roster of one
entry. -/
theorem handleRemoveFriend_absent_key_witness :
    "ghost-nowhere".toList ∉ ["atlas-tarren-mill".toList] ∧
    (handleRemoveFriend
        { emptyState with friends := ["atlas-tarren-mill".toList], friendData := [scenarioSnapshot] }
        "ghost-nowhere".toList 5).friendData = [scenarioSnapshot] :=
  ⟨by decide,
    (handleRemoveFriend_absent_key
        { emptyState with friends := ["atlas-tarren-mill".toList], friendData := [scenarioSnapshot] }
        "ghost-nowhere".toList 5 (by decide)).2.1 (Or.inr (by decide))⟩

/-- C9 as stated fails: for 3 wins in 2000 games the exact percentage is
0.15, and the double computed is below it, so `0.1` is shown; for
`2 ^ 53 - 1` wins in 1 game the product with 100 is not a double, and the
digits of the nearest double are shown. -/
theorem winRate_not_rounded :
    winRate { played := 2000, won := 3, lost := 1997 } = "0.1".toList ∧
    (3 : ℚ) / 2000 * 100 = 15 / 100 ∧
    winRate { played := 1, won := 9007199254740991, lost := 0 }
      = "900719925474099072.0".toList ∧
    (9007199254740991 : ℚ) / 1 * 100 = 900719925474099100 := by
  have a1 : toDouble ((3 : ℚ) / 2000) = 6917529027641082 * 2 ^ (-10 - 52 : ℤ) :=
    toDouble_eq _ (-10) 6917529027641082 (by norm_num) (by norm_num) (by norm_num) (by norm_num)
      (by norm_num) (by norm_num)
  have a2 : toDouble ((6917529027641082 : ℚ) * 2 ^ (-10 - 52 : ℤ) * 100)
      = 5404319552844595 * 2 ^ (-3 - 52 : ℤ) :=
    toDouble_eq _ (-3) 5404319552844595 (by norm_num) (by norm_num) (by norm_num) (by norm_num)
      (by norm_num) (by norm_num)
  have b1 : toDouble ((9007199254740991 : ℚ) / 1) = 9007199254740991 * 2 ^ (52 - 52 : ℤ) :=
    toDouble_eq _ 52 9007199254740991 (by norm_num) (by norm_num) (by norm_num) (by norm_num)
      (by norm_num) (by norm_num)
  have b2 : toDouble ((9007199254740991 : ℚ) * 2 ^ (52 - 52 : ℤ) * 100)
      = 7036874417766399 * 2 ^ (59 - 52 : ℤ) :=
    toDouble_eq _ 59 7036874417766399 (by norm_num) (by norm_num) (by norm_num) (by norm_num)
      (by norm_num) (by norm_num)
  refine ⟨?_, by norm_num, ?_, by norm_num⟩
  · have hpos : (0 : ℚ) < 5404319552844595 * 2 ^ (-3 - 52 : ℤ) := by positivity
    have hfl : ⌊|(5404319552844595 : ℚ) * 2 ^ (-3 - 52 : ℤ)| * 10 + 1 / 2⌋₊ = 1 := by
      rw [abs_of_pos hpos, Nat.floor_eq_iff (by positivity)]
      constructor <;> norm_num
    have hc : (((3 : ℤ) : ℚ) / ((2000 : ℤ) : ℚ)) = 3 / 2000 := by norm_num
    show (if (2000 : ℤ) = 0 then "0.0".toList
      else toFixed1 (toDouble (toDouble (((3 : ℤ) : ℚ) / ((2000 : ℤ) : ℚ)) * 100))) = _
    rw [if_neg (by norm_num), hc, a1, a2]
    unfold toFixed1
    rw [if_neg (not_lt.mpr hpos.le), hfl]
    decide
  · have hpos : (0 : ℚ) < 7036874417766399 * 2 ^ (59 - 52 : ℤ) := by positivity
    have hfl : ⌊|(7036874417766399 : ℚ) * 2 ^ (59 - 52 : ℤ)| * 10 + 1 / 2⌋₊
        = 9007199254740990720 := by
      rw [abs_of_pos hpos, Nat.floor_eq_iff (by positivity)]
      constructor <;> norm_num
    have hc : (((9007199254740991 : ℤ) : ℚ) / ((1 : ℤ) : ℚ)) = 9007199254740991 / 1 := by
      norm_num
    show (if (1 : ℤ) = 0 then "0.0".toList
      else toFixed1
        (toDouble (toDouble (((9007199254740991 : ℤ) : ℚ) / ((1 : ℤ) : ℚ)) * 100))) = _
    rw [if_neg (by norm_num), hc, b1, b2]
    unfold toFixed1
    rw [if_neg (not_lt.mpr hpos.le), hfl]
    decide

/-- C9 amended: for integers `0 ≤ played < 2 ^ 53` and `0 ≤ won ≤ 2 ^ 40` the
win rate shown is `0.0` when `played` is 0, and otherwise the rendering with
one decimal of a tenth nearest to `won / played * 100`, either of the two
at an exact tie. -/
theorem winRate_nearest_tenth (stats : Statistics)
    (hplayed : 0 ≤ stats.played) (hplayed2 : stats.played < 2 ^ 53)
    (hwon : 0 ≤ stats.won) (hwon2 : stats.won ≤ 2 ^ 40) :
    (stats.played = 0 → winRate stats = "0.0".toList) ∧
    (stats.played ≠ 0 →
      ∃ n : ℕ,
        |(n : ℚ) / 10 - (stats.won : ℚ) / (stats.played : ℚ) * 100| ≤ 1 / 20 ∧
        winRate stats = Nat.toDigits 10 (n / 10) ++ '.' :: Nat.toDigits 10 (n % 10)) := by
  constructor
  · intro h
    simp [winRate, h]
  · intro h
    have hp : 1 ≤ stats.played := by omega
    rcases eq_or_lt_of_le hwon with h0 | hpos
    · have hfl : ⌊(2 : ℚ)⁻¹⌋₊ = 0 := by
        rw [Nat.floor_eq_zero]
        norm_num
      refine ⟨0, ?_, ?_⟩
      · simp [← h0]
      · simp [winRate, h, ← h0, toDouble_zero, toFixed1, hfl]
    · have hw : 1 ≤ stats.won := by omega
      have hpq : (1 : ℚ) ≤ stats.played := by exact_mod_cast hp
      have hpq2 : (stats.played : ℚ) ≤ 2 ^ 53 := by exact_mod_cast hplayed2.le
      have hwq : (1 : ℚ) ≤ stats.won := by exact_mod_cast hw
      obtain ⟨hx, -⟩ := winRate_double_err (stats.won : ℚ) (stats.played : ℚ) hwq hpq hpq2
      refine ⟨⌊|toDouble (toDouble ((stats.won : ℚ) / (stats.played : ℚ)) * 100)| * 10 + 1 / 2⌋₊,
        winRate_nearest stats.won stats.played hw hwon2 hp hplayed2, ?_⟩
      simp only [winRate, h, if_false, toFixed1, not_lt.mpr hx.le, List.nil_append]

/-- Witness of C9 amended: 7 wins in 10 games, shown as `70.0`, and no game
played, shown as `0.0`. -/
theorem winRate_nearest_tenth_witness :
    ((0 : ℤ) ≤ 10 ∧ (10 : ℤ) < 2 ^ 53 ∧ (0 : ℤ) ≤ 7 ∧ (7 : ℤ) ≤ 2 ^ 40) ∧
    winRate { played := 10, won := 7, lost := 3 } = "70.0".toList ∧
    winRate { played := 0, won := 0, lost := 0 } = "0.0".toList ∧
    ∃ n : ℕ,
      |(n : ℚ) / 10 - ((7 : ℤ) : ℚ) / ((10 : ℤ) : ℚ) * 100| ≤ 1 / 20 ∧
      winRate { played := 10, won := 7, lost := 3 }
        = Nat.toDigits 10 (n / 10) ++ '.' :: Nat.toDigits 10 (n % 10) :=
  ⟨by decide, winRate_seven_of_ten, rfl,
    (winRate_nearest_tenth { played := 10, won := 7, lost := 3 }
      (by decide) (by decide) (by decide) (by decide)).2 (by decide)⟩

/-- C10 as stated fails: with a `/` in the query string the token is taken
from the query, not from the trailing path segment `3v3`. -/
theorem bracketType_query_with_slash :
    "3v3".toList ≠ [] ∧ '/' ∉ "3v3".toList ∧ '?' ∉ "3v3".toList ∧
    bracketType ("https://host/pvp-bracket".toList ++ '/' :: ("3v3".toList ++ '?' :: "next=a/b".toList))
      = "b".toList := by
  decide

/-- C10 amended: for a reference whose path ends in a segment `s` containing
neither `/` nor `?`, alone or followed by `?` and a query string without
`/`, the derived bracket type token is `s`. -/
theorem bracketType_trailing_segment (p s q : Str) (hs1 : '/' ∉ s) (hs2 : '?' ∉ s)
    (hq : '/' ∉ q) :
    bracketType (p ++ '/' :: s) = s ∧ bracketType (p ++ '/' :: (s ++ '?' :: q)) = s :=
  ⟨bracketType_path p s hs1 hs2, bracketType_path_query p s q hs1 hs2 hq⟩

/-- Witness of C10 amended: a bracket reference of the remote service. -/
theorem bracketType_trailing_segment_witness :
    ('/' ∉ "3v3".toList ∧ '?' ∉ "3v3".toList ∧ '/' ∉ "namespace=profile-eu".toList) ∧
    bracketType ("https://eu.api.blizzard.com/pvp-bracket".toList ++ '/' :: "3v3".toList)
      = "3v3".toList ∧
    bracketType ("https://eu.api.blizzard.com/pvp-bracket".toList ++
        '/' :: ("3v3".toList ++ '?' :: "namespace=profile-eu".toList)) = "3v3".toList :=
  ⟨by decide,
    bracketType_trailing_segment "https://eu.api.blizzard.com/pvp-bracket".toList "3v3".toList
      "namespace=profile-eu".toList (by decide) (by decide) (by decide)⟩

/-- C11 as stated fails: the cached token `stale` is rejected for
authentication and a token request would give a token with which the whole
build succeeds, yet the build returns `null` after the one rejected request,
without a retry, and the cached token stays `stale`. -/
theorem fetchFriendData_stale_token_not_retried :
    staleEnv.profile "tarren-mill".toList "atlas".toList "stale".toList = .error .authRejected ∧
    staleEnv.token = .ok "token".toList ∧
    fetchFriendData staleEnv none "atlas".toList "tarren-mill".toList = some scenarioSnapshot ∧
    fetchFriendData staleEnv (some "stale".toList) "atlas".toList "tarren-mill".toList = none ∧
    (fetchFriendDataRun staleEnv (some "stale".toList) "atlas".toList "tarren-mill".toList).2
      = [.profile "tarren-mill".toList "atlas".toList "stale".toList] ∧
    tokenAfter staleEnv (some "stale".toList) = some "stale".toList := by
  refine ⟨rfl, rfl, ?_, ?_, ?_, ?_⟩ <;> decide

/-- C11 amended: with a cached token the build requests no new token and
leaves the cached token as it is; when the profile, the media or the summary
request is rejected for authentication the build returns `null` and the
rejected request is the last one issued, each request being issued once;
when the three succeed the build returns a snapshot and has issued exactly
one request for each enumerated bracket, whatever bracket request is
rejected. -/
theorem fetchFriendData_no_retry (env : Env) (t friendName server : Str) (ht : t ≠ []) :
    tokenAfter env (some t) = some t ∧
    Request.token ∉ (fetchFriendDataRun env (some t) friendName server).2 ∧
    (env.profile server friendName t = .error .authRejected →
      fetchFriendData env (some t) friendName server = none ∧
      (fetchFriendDataRun env (some t) friendName server).2 = [.profile server friendName t]) ∧
    (∀ profileResponse, env.profile server friendName t = .ok profileResponse →
      env.media server friendName t = .error .authRejected →
      fetchFriendData env (some t) friendName server = none ∧
      (fetchFriendDataRun env (some t) friendName server).2
        = [.profile server friendName t, .media server friendName t]) ∧
    (∀ profile media, env.profile server friendName t = .ok (some profile) →
      env.media server friendName t = .ok media →
      env.pvpSummary server friendName t = .error .authRejected →
      fetchFriendData env (some t) friendName server = none ∧
      (fetchFriendDataRun env (some t) friendName server).2
        = [.profile server friendName t, .media server friendName t,
            .pvpSummary server friendName t]) ∧
    (∀ profile media summary, env.profile server friendName t = .ok (some profile) →
      env.media server friendName t = .ok media →
      env.pvpSummary server friendName t = .ok summary →
      (fetchFriendData env (some t) friendName server).isSome = true ∧
      (fetchFriendDataRun env (some t) friendName server).2
        = [.profile server friendName t, .media server friendName t,
            .pvpSummary server friendName t] ++
          mapFrom (bracketRequest server friendName t) 0 summary.brackets) := by
  have hr := resolveToken_cached env t ht
  have hq := tokenRequests_cached t ht
  refine ⟨by simp [tokenAfter, ht], ?_, ?_, ?_, ?_, ?_⟩
  · unfold fetchFriendDataRun
    rw [hr, hq]
    rcases hp : env.profile server friendName t with e | profileResponse
    · simp [hp]
    · rcases hm : env.media server friendName t with e | media
      · simp [hp, hm]
      · rcases profileResponse with _ | profile
        · simp [hp, hm]
        · rcases hs : env.pvpSummary server friendName t with e | summary
          · simp [hp, hm, hs]
          · simpa [hp, hm, hs] using
              token_not_mem_mapFrom_bracketRequest server friendName t 0 summary.brackets
  · intro hp
    rw [← fetchFriendDataRun_fst]
    simp [fetchFriendDataRun, hr, hq, hp]
  · intro profileResponse hp hm
    rw [← fetchFriendDataRun_fst]
    simp [fetchFriendDataRun, hr, hq, hp, hm]
  · intro profile media hp hm hs
    rw [← fetchFriendDataRun_fst]
    simp [fetchFriendDataRun, hr, hq, hp, hm, hs]
  · intro profile media summary hp hm hs
    rw [← fetchFriendDataRun_fst]
    simp [fetchFriendDataRun, hr, hq, hp, hm, hs]

/-- Witness of C11 amended: the cached token `stale`, rejected at the profile
request. -/
theorem fetchFriendData_no_retry_witness :
    "stale".toList ≠ [] ∧
    tokenAfter staleEnv (some "stale".toList) = some "stale".toList ∧
    Request.token ∉
      (fetchFriendDataRun staleEnv (some "stale".toList) "atlas".toList "tarren-mill".toList).2 ∧
    fetchFriendData staleEnv (some "stale".toList) "atlas".toList "tarren-mill".toList = none ∧
    (fetchFriendDataRun staleEnv (some "stale".toList) "atlas".toList "tarren-mill".toList).2
      = [.profile "tarren-mill".toList "atlas".toList "stale".toList] :=
  ⟨by decide,
    (fetchFriendData_no_retry staleEnv "stale".toList "atlas".toList "tarren-mill".toList
      (by decide)).1,
    (fetchFriendData_no_retry staleEnv "stale".toList "atlas".toList "tarren-mill".toList
      (by decide)).2.1,
    (fetchFriendData_no_retry staleEnv "stale".toList "atlas".toList "tarren-mill".toList
      (by decide)).2.2.1 rfl⟩

/-- C12: two snapshots with equal best shuffle rating, also two without
shuffle bracket, of which one precedes the other in the roster, are in that
order in the ranked view; the snapshots of every best rating are in the
ranked view in their roster order; and the ranked view is the only
descending arrangement with that property, so that ranking a roster gives
the same sequence every time. -/
theorem rankedView_stable (friendData : List Snapshot) :
    (∀ a b : Snapshot, bestShuffleRating a = bestShuffleRating b →
      List.Sublist [a, b] friendData → List.Sublist [a, b] (rankedView friendData)) ∧
    (∀ v : WithBot Int,
      (rankedView friendData).filter (fun a => decide (bestShuffleRating a = v))
        = friendData.filter (fun a => decide (bestShuffleRating a = v))) ∧
    (∀ ranking : List Snapshot,
      ranking.Pairwise (fun a b => bestShuffleRating b ≤ bestShuffleRating a) →
      (∀ v : WithBot Int,
        ranking.filter (fun a => decide (bestShuffleRating a = v))
          = friendData.filter (fun a => decide (bestShuffleRating a = v))) →
      ranking = rankedView friendData) := by
  refine ⟨?_, rankedView_filter_eq friendData, ?_⟩
  · intro a b hab hsub
    exact List.pair_sublist_insertionSort
      ((compareFn_not_positive_iff a b).mpr (le_of_eq hab.symm)) hsub
  · intro ranking hsorted hfilter
    apply eq_of_sorted_of_filter_eq ranking (rankedView friendData) hsorted
      (rankedView_pairwise friendData)
    intro v
    rw [hfilter v, rankedView_filter_eq]

/-- Witness of C12: two snapshots without shuffle bracket around one with a
shuffle bracket; the ranked view puts the latter first and keeps the order
of the former two. -/
theorem rankedView_stable_witness :
    bestShuffleRating (teamOnlySnapshot "Brann".toList 1500)
      = bestShuffleRating (teamOnlySnapshot "Cato".toList 1900) ∧
    rankedView
        [teamOnlySnapshot "Brann".toList 1500, scenarioSnapshot,
          teamOnlySnapshot "Cato".toList 1900]
      = [scenarioSnapshot, teamOnlySnapshot "Brann".toList 1500,
          teamOnlySnapshot "Cato".toList 1900] ∧
    List.Sublist [teamOnlySnapshot "Brann".toList 1500, teamOnlySnapshot "Cato".toList 1900]
      (rankedView
        [teamOnlySnapshot "Brann".toList 1500, scenarioSnapshot,
          teamOnlySnapshot "Cato".toList 1900]) :=
  ⟨by decide, by decide,
    (rankedView_stable
        [teamOnlySnapshot "Brann".toList 1500, scenarioSnapshot,
          teamOnlySnapshot "Cato".toList 1900]).1
      (teamOnlySnapshot "Brann".toList 1500) (teamOnlySnapshot "Cato".toList 1900)
      (by decide) (by decide)⟩

end WowTracker
